import Mathlib

/-!
# ssf: version handshake and the Stop-Service admin command

A shallow embedding of
* `src/core/transport_virtual_layer_policies/transport_protocol_policy.h`
  (`TransportProtocolPolicy`: `GetVersion`, `IsSupportedVersion` and the
  callback chain `DoSSFInitiate`, `DoSSFInitiateReceive`, `DoSSFValid`,
  `DoSSFValidReceive`, `DoSSFProtocolFinished`);
* `src/services/admin/requests/stop_service_request.h`
  (`StopServiceRequest::OnReceive`, `StopServiceRequest::OnReply`).

Machine integers are natural numbers; a `uint32_t` assignment reduces modulo
`2 ^ 32` and a `uint8_t` assignment modulo `2 ^ 8`.
-/

namespace ssf

/-! ## Version constants (`versions.h`) -/

/-- The four constants `versions::major`, `versions::minor`,
`versions::transport` and `versions::circuit` of `versions.h`. The header is
not part of the sources at hand, so the constants are a parameter of every
definition that reads them. -/
structure Versions where
  major : Nat
  minor : Nat
  transport : Nat
  circuit : Nat
deriving DecidableEq, Repr

/-- Each version constant is one byte. -/
def Versions.IsBytes (V : Versions) : Prop :=
  V.major < 256 ∧ V.minor < 256 ∧ V.transport < 256 ∧ V.circuit < 256

instance (V : Versions) : Decidable V.IsBytes := by
  unfold Versions.IsBytes; exact inferInstance

/-- Storing a value in a `uint32_t`. -/
def u32 (n : Nat) : Nat := n % 2 ^ 32

/-- Storing a value in a `uint8_t`. -/
def u8 (n : Nat) : Nat := n % 2 ^ 8

/-- `TransportProtocolPolicy::GetVersion`:
```
uint32_t version = versions::major;
version = version << 8;
version |= versions::minor;
version = version << 8;
version |= versions::transport;
version = version << 8;
version |= versions::circuit;
return version;
``` -/
def GetVersion (V : Versions) : Nat :=
  let version := u32 V.major
  let version := u32 (version <<< 8)
  let version := u32 (version ||| V.minor)
  let version := u32 (version <<< 8)
  let version := u32 (version ||| V.transport)
  let version := u32 (version <<< 8)
  let version := u32 (version ||| V.circuit)
  version

/-- `TransportProtocolPolicy::IsSupportedVersion`:
```
input_version = input_version >> 8;
uint8_t transport = (input_version & 0x000000FF);
input_version = input_version >> 8;
input_version = input_version >> 8;
uint8_t major = (input_version & 0x000000FF);
return (major == versions::major) && (transport == versions::transport);
``` -/
def IsSupportedVersion (V : Versions) (input_version : Nat) : Bool :=
  let input_version := u32 input_version
  let input_version := input_version >>> 8
  let transport := u8 (input_version &&& 0x000000FF)
  let input_version := input_version >>> 8
  let input_version := input_version >>> 8
  let major := u8 (input_version &&& 0x000000FF)
  (major == V.major) && (transport == V.transport)

/-- The field extraction of `IsSupportedVersion` with the two extractions the
source keeps as comments (`// uint8_t circuit = (input_version & 0x000000FF);`
and `// uint8_t minor = (input_version & 0x000000FF);`) carried out as well:
the same chain of `>> 8` and `& 0xFF`, yielding all four fields. -/
def decodeVersion (input_version : Nat) : Versions :=
  let input_version := u32 input_version
  let circuit := u8 (input_version &&& 0x000000FF)
  let input_version := input_version >>> 8
  let transport := u8 (input_version &&& 0x000000FF)
  let input_version := input_version >>> 8
  let minor := u8 (input_version &&& 0x000000FF)
  let input_version := input_version >>> 8
  let major := u8 (input_version &&& 0x000000FF)
  { major := major, minor := minor, transport := transport, circuit := circuit }

/-! ## Error codes (`boost::system::error_code`) -/

/-- An error category, compared by identity as `boost::system` does:
`boost::system::system_category()`, `::error::get_ssf_category()`, or any
other one a transport may report. -/
inductive Category
  | system
  | ssf
  | other (id : Nat)
deriving DecidableEq, Repr

/-- The value and the category of a `boost::system::error_code`. -/
structure ErrorCode where
  value : Int
  category : Category
deriving DecidableEq, Repr

/-- The test `if (ec)`: an error code converts to `true` when its value is
not zero. -/
def ErrorCode.failed (ec : ErrorCode) : Bool := ec.value != 0

/-- `ec.assign(value, category)`: both parts of `ec` are replaced. -/
def ErrorCode.assign (_ec : ErrorCode) (value : Int) (category : Category) : ErrorCode :=
  { value := value, category := category }

/-- A default-constructed `boost::system::error_code`: value `0` in the system
category. -/
def ErrorCode.success : ErrorCode := { value := 0, category := Category.system }

/-- The numeric values of the error enumerators the two files use:
`::error::wrong_protocol_type` and `::error::invalid_argument` of
`common/error/error.h` and `boost::system::errc::interrupted`. None of the
three headers is part of the sources at hand, so the values are a parameter. -/
structure ErrorValues where
  wrong_protocol_type : Int
  invalid_argument : Int
  interrupted : Int
deriving DecidableEq, Repr

/-! ## Handshake packets (`init_packets/ssf_request.h`, `init_packets/ssf_reply.h`) -/

/-- Modelled from the spec: `SSFRequest::const_buffer()` of
`init_packets/ssf_request.h`, which is not part of the sources at hand. The
request is 4 bytes, `(major << 24) | (minor << 16) | (transport << 8) | circuit`,
most significant byte first. -/
def SSFRequest.const_buffer (version : Nat) : List Nat :=
  [u32 version / 2 ^ 24 % 256, u32 version / 2 ^ 16 % 256,
   u32 version / 2 ^ 8 % 256, u32 version % 256]

/-- Modelled from the spec: `SSFRequest::version()` of
`init_packets/ssf_request.h`, on a request whose 4-byte buffer holds `buffer`;
the inverse of `const_buffer`. A buffer that does not hold 4 bytes reads as
version `0`. -/
def SSFRequest.version (buffer : List Nat) : Nat :=
  match buffer with
  | [b3, b2, b1, b0] => ((u8 b3 * 256 + u8 b2) * 256 + u8 b1) * 256 + u8 b0
  | _ => 0

/-- Size in bytes of the buffer of an `SSFRequest`. -/
def SSFRequest.size : Nat := 4

/-- Modelled from the spec: `SSFReply::const_buffer()` of
`init_packets/ssf_reply.h`, which is not part of the sources at hand. The
reply is 1 byte, nonzero = accepted, zero = rejected. -/
def SSFReply.const_buffer (result : Bool) : List Nat :=
  [if result then 1 else 0]

/-- Modelled from the spec: `SSFReply::result()` of `init_packets/ssf_reply.h`,
on a reply whose 1-byte buffer holds `buffer`: nonzero = accepted. -/
def SSFReply.result (buffer : List Nat) : Bool :=
  match buffer with
  | [b] => u8 b != 0
  | _ => false

/-- Size in bytes of the buffer of an `SSFReply`. -/
def SSFReply.size : Nat := 1

/-! ## The callback chain of `TransportProtocolPolicy` -/

/-- The completion handlers the policy binds to an asynchronous operation. Each
lambda captures the packet (`p_ssf_request` or `p_ssf_reply`) whose buffer the
operation works on and forwards to the member function of the same name. -/
inductive Handler
  | DoSSFValid
  | DoSSFValidReceive
  | DoSSFProtocolFinished
deriving DecidableEq, Repr

/-- What a member function can do with the socket and the callback:
`boost::asio::async_write(socket, buffer, handler)`,
`boost::asio::async_read(socket, buffer, handler)` on a buffer of `size` bytes,
`socket.get_io_service().post([..]() { callback(socket, ec); })`, or a direct
call `callback(socket, ec)`. -/
inductive Action
  | async_write (buffer : List Nat) (handler : Handler)
  | async_read (size : Nat) (handler : Handler)
  | post (ec : ErrorCode)
  | call (ec : ErrorCode)
deriving DecidableEq, Repr

/-- The action starts a read or a write on the socket. -/
def Action.isAsync : Action → Bool
  | Action.async_write _ _ => true
  | Action.async_read _ _ => true
  | Action.post _ => false
  | Action.call _ => false

/-- The error code handed to the continuation through `post`, if the action is
a `post`. -/
def Action.posted? : Action → Option ErrorCode
  | Action.post ec => some ec
  | _ => none

/-- `TransportProtocolPolicy::DoSSFInitiate`: build the request from
`GetVersion()` and write it; `on_write` forwards to `DoSSFValidReceive`. -/
def DoSSFInitiate (V : Versions) : List Action :=
  let version := GetVersion V
  [Action.async_write (SSFRequest.const_buffer version) Handler.DoSSFValidReceive]

/-- `TransportProtocolPolicy::DoSSFInitiateReceive`: read a request; `on_read`
forwards to `DoSSFValid`. -/
def DoSSFInitiateReceive : List Action :=
  [Action.async_read SSFRequest.size Handler.DoSSFValid]

/-- `TransportProtocolPolicy::DoSSFValid`, with `p_ssf_request` the content of
the request buffer when the read completes. -/
def DoSSFValid (V : Versions) (K : ErrorValues) (p_ssf_request : List Nat)
    (ec : ErrorCode) (_length : Nat) : List Action :=
  if ec.failed then
    [Action.post ec]
  else
    let version := u32 (SSFRequest.version p_ssf_request)
    if !IsSupportedVersion V version then
      let result_ec : ErrorCode :=
        { value := K.wrong_protocol_type, category := Category.ssf }
      [Action.post result_ec]
    else
      [Action.async_write (SSFReply.const_buffer true) Handler.DoSSFProtocolFinished]

/-- `TransportProtocolPolicy::DoSSFValidReceive`. -/
def DoSSFValidReceive (_p_ssf_request : List Nat) (ec : ErrorCode)
    (_length : Nat) : List Action :=
  if ec.failed then
    [Action.post ec]
  else
    [Action.async_read SSFReply.size Handler.DoSSFProtocolFinished]

/-- `TransportProtocolPolicy::DoSSFProtocolFinished`, with `p_ssf_reply` the
content of the reply buffer when the read or the write completes. -/
def DoSSFProtocolFinished (K : ErrorValues) (p_ssf_reply : List Nat)
    (ec : ErrorCode) (_length : Nat) : List Action :=
  if ec.failed then
    [Action.post ec]
  else if !SSFReply.result p_ssf_reply then
    let result_ec : ErrorCode :=
      { value := K.wrong_protocol_type, category := Category.ssf }
    [Action.post result_ec]
  else
    [Action.post ec]

/-! ## Running the chain -/

/-- How an asynchronous operation ends: the error code and the length given to
its handler and, for a read, what the buffer then holds. -/
structure Completion where
  ec : ErrorCode
  length : Nat
  data : List Nat
deriving DecidableEq, Repr

/-- Call a completion handler on the packet it captured. -/
def invoke (V : Versions) (K : ErrorValues) :
    Handler → List Nat → ErrorCode → Nat → List Action
  | Handler.DoSSFValid, packet, ec, length => DoSSFValid V K packet ec length
  | Handler.DoSSFValidReceive, packet, ec, length => DoSSFValidReceive packet ec length
  | Handler.DoSSFProtocolFinished, packet, ec, length =>
      DoSSFProtocolFinished K packet ec length

/-- The actions taken when operation `op` completes with `c`. The handler of a
write sees the packet it wrote, the handler of a read the packet read. -/
def complete (V : Versions) (K : ErrorValues) : Action → Completion → List Action
  | Action.async_write buffer handler, c => invoke V K handler buffer c.ec c.length
  | Action.async_read _ handler, c => invoke V K handler c.data c.ec c.length
  | _, _ => []

/-- One side of a handshake: every action taken so far, in order, and the
operations started and not yet completed, oldest first. -/
structure Endpoint where
  trace : List Action
  pending : List Action
deriving DecidableEq, Repr

/-- The side after an entry point has run. -/
def Endpoint.start (acts : List Action) : Endpoint :=
  { trace := acts, pending := acts.filter Action.isAsync }

/-- The oldest pending operation completes with `c`. -/
def Endpoint.step (V : Versions) (K : ErrorValues) (e : Endpoint) (c : Completion) :
    Endpoint :=
  match e.pending with
  | [] => e
  | op :: rest =>
      let acts := complete V K op c
      { trace := e.trace ++ acts, pending := rest ++ acts.filter Action.isAsync }

/-- The operations complete one after the other as `cs` says. -/
def Endpoint.run (V : Versions) (K : ErrorValues) (e : Endpoint) (cs : List Completion) :
    Endpoint :=
  cs.foldl (Endpoint.step V K) e

/-- The error codes posted to the continuation so far. -/
def Endpoint.posted (e : Endpoint) : List ErrorCode :=
  e.trace.filterMap Action.posted?

/-- The handshake of this side is over and gave `ec` to the continuation. -/
def Endpoint.CompletedWith (e : Endpoint) (ec : ErrorCode) : Prop :=
  e.pending = [] ∧ e.posted = [ec]

instance (e : Endpoint) (ec : ErrorCode) : Decidable (e.CompletedWith ec) := by
  unfold Endpoint.CompletedWith; exact inferInstance

/-! ## Two sides on one stream -/

/-- The two sides of a connection. -/
inductive Side
  | initiator
  | responder
deriving DecidableEq, Repr

/-- An initiator and a responder joined by a duplex stream: the bytes written by
one side and not yet read by the other. -/
structure Handshake where
  initiator : Endpoint
  responder : Endpoint
  toResponder : List Nat
  toInitiator : List Nat
deriving DecidableEq, Repr

/-- A stream on which no read or write fails: a write completes with success and
sends its buffer; a read of `size` bytes completes with success once `size`
bytes have arrived and takes them; until then it stays pending. Gives the
completion, the bytes left to read, and the bytes sent. -/
def reliable (op : Action) (incoming : List Nat) :
    Option (Completion × List Nat × List Nat) :=
  match op with
  | Action.async_write buffer _ =>
      some ({ ec := ErrorCode.success, length := buffer.length, data := buffer },
            incoming, buffer)
  | Action.async_read size _ =>
      if size ≤ incoming.length then
        some ({ ec := ErrorCode.success, length := size, data := incoming.take size },
              incoming.drop size, [])
      else none
  | _ => none

/-- The oldest pending operation of a side completes, if the stream lets it. -/
def Endpoint.advance (V : Versions) (K : ErrorValues) (e : Endpoint)
    (incoming : List Nat) : Endpoint × List Nat × List Nat :=
  match e.pending with
  | [] => (e, incoming, [])
  | op :: _ =>
      match reliable op incoming with
      | none => (e, incoming, [])
      | some (c, incoming1, out) => (e.step V K c, incoming1, out)

/-- One side gets to run. -/
def Handshake.step (Vi Vr : Versions) (K : ErrorValues) (h : Handshake) :
    Side → Handshake
  | Side.initiator =>
      let r := h.initiator.advance Vi K h.toInitiator
      { h with initiator := r.1, toInitiator := r.2.1,
               toResponder := h.toResponder ++ r.2.2 }
  | Side.responder =>
      let r := h.responder.advance Vr K h.toResponder
      { h with responder := r.1, toResponder := r.2.1,
               toInitiator := h.toInitiator ++ r.2.2 }

/-- The sides run in the order `schedule` says. -/
def Handshake.run (Vi Vr : Versions) (K : ErrorValues) (h : Handshake)
    (schedule : List Side) : Handshake :=
  schedule.foldl (Handshake.step Vi Vr K) h

/-- The initiator has called `DoSSFInitiate`, the responder
`DoSSFInitiateReceive`, and nothing is in flight. -/
def Handshake.start (Vi : Versions) : Handshake :=
  { initiator := Endpoint.start (DoSSFInitiate Vi),
    responder := Endpoint.start DoSSFInitiateReceive,
    toResponder := [], toInitiator := [] }

/-- Both sides get to run in turn, `n` times. -/
def roundRobin : Nat → List Side
  | 0 => []
  | n + 1 => Side.initiator :: Side.responder :: roundRobin n

/-- Where a handshake on a failure-free stream can stand; used to follow a run
under any schedule. `accepted` tells whether the responder supports the
initiator's version.
* 0: both sides have started;
* 1: the request is written and not yet read;
* 2: the responder has read the request and is writing the reply;
* 3: the reply is written, the responder is done;
* 4: the initiator has read the reply, both sides are done;
* 5: the responder has turned the request down and is done; the initiator
  waits for a reply. -/
def nextPhase (accepted : Bool) : Fin 6 → Side → Fin 6
  | 0, Side.initiator => 1
  | 1, Side.responder => if accepted then 2 else 5
  | 2, Side.responder => 3
  | 3, Side.initiator => 4
  | p, _ => p

/-- The state of the handshake in each phase. -/
def phaseState (Vi : Versions) (K : ErrorValues) : Fin 6 → Handshake
  | 0 => Handshake.start Vi
  | 1 =>
    { initiator :=
        { trace := [Action.async_write (SSFRequest.const_buffer (GetVersion Vi))
                      Handler.DoSSFValidReceive,
                    Action.async_read 1 Handler.DoSSFProtocolFinished],
          pending := [Action.async_read 1 Handler.DoSSFProtocolFinished] },
      responder := Endpoint.start DoSSFInitiateReceive,
      toResponder := SSFRequest.const_buffer (GetVersion Vi), toInitiator := [] }
  | 2 =>
    { initiator :=
        { trace := [Action.async_write (SSFRequest.const_buffer (GetVersion Vi))
                      Handler.DoSSFValidReceive,
                    Action.async_read 1 Handler.DoSSFProtocolFinished],
          pending := [Action.async_read 1 Handler.DoSSFProtocolFinished] },
      responder :=
        { trace := [Action.async_read 4 Handler.DoSSFValid,
                    Action.async_write [1] Handler.DoSSFProtocolFinished],
          pending := [Action.async_write [1] Handler.DoSSFProtocolFinished] },
      toResponder := [], toInitiator := [] }
  | 3 =>
    { initiator :=
        { trace := [Action.async_write (SSFRequest.const_buffer (GetVersion Vi))
                      Handler.DoSSFValidReceive,
                    Action.async_read 1 Handler.DoSSFProtocolFinished],
          pending := [Action.async_read 1 Handler.DoSSFProtocolFinished] },
      responder :=
        { trace := [Action.async_read 4 Handler.DoSSFValid,
                    Action.async_write [1] Handler.DoSSFProtocolFinished,
                    Action.post ErrorCode.success],
          pending := [] },
      toResponder := [], toInitiator := [1] }
  | 4 =>
    { initiator :=
        { trace := [Action.async_write (SSFRequest.const_buffer (GetVersion Vi))
                      Handler.DoSSFValidReceive,
                    Action.async_read 1 Handler.DoSSFProtocolFinished,
                    Action.post ErrorCode.success],
          pending := [] },
      responder :=
        { trace := [Action.async_read 4 Handler.DoSSFValid,
                    Action.async_write [1] Handler.DoSSFProtocolFinished,
                    Action.post ErrorCode.success],
          pending := [] },
      toResponder := [], toInitiator := [] }
  | 5 =>
    { initiator :=
        { trace := [Action.async_write (SSFRequest.const_buffer (GetVersion Vi))
                      Handler.DoSSFValidReceive,
                    Action.async_read 1 Handler.DoSSFProtocolFinished],
          pending := [Action.async_read 1 Handler.DoSSFProtocolFinished] },
      responder :=
        { trace := [Action.async_read 4 Handler.DoSSFValid,
                    Action.post { value := K.wrong_protocol_type, category := Category.ssf }],
          pending := [] },
      toResponder := [], toInitiator := [] }

/-! ## `StopServiceRequest::OnReceive` -/

/-- `std::isspace` in the classic locale: space, `\t`, `\n`, `\v`, `\f`, `\r`. -/
def isspace (c : Char) : Bool :=
  c.toNat == 32 || (9 ≤ c.toNat && c.toNat ≤ 13)

/-- `ss << request.unique_id()` on an empty `std::stringstream`: a `uint32_t`
is written in decimal, without sign, padding or separators. -/
def streamInsert (unique_id : Nat) : List Char :=
  Nat.toDigits 10 unique_id

/-- `ss >> result` into an empty `std::string`: leading whitespace is skipped,
then characters are taken up to the next whitespace or the end of the
stream. -/
def streamExtract (ss : List Char) : List Char :=
  (ss.dropWhile isspace).takeWhile (fun c => !isspace c)

/-- A call `OnReceive` makes on the service factory of the demultiplexer. -/
inductive FactoryCall
  | StopService (id : Nat)
deriving DecidableEq, Repr

/-- What `OnReceive` leaves behind: the string returned, the value of the
in-out parameter `ec`, and the calls made on
`ServiceFactoryManager<Demux>::GetServiceFactory(p_demux)`, in order. -/
structure Received where
  result : String
  ec : ErrorCode
  calls : List FactoryCall
deriving DecidableEq, Repr

/-- `StopServiceRequest::OnReceive`. `unpack` stands for
`msgpack::unpack(...)` followed by `obj.convert(request)`: it gives the
`unique_id_` of the request, or `none` when either throws a `std::exception`. -/
def StopServiceRequest.OnReceive (K : ErrorValues) (unpack : String → Option Nat)
    (serialized_request : String) (ec : ErrorCode) : Received :=
  match unpack serialized_request with
  | none =>
      let ec := ec.assign K.invalid_argument Category.ssf
      { result := "", ec := ec, calls := [] }
  | some id =>
      let unique_id := u32 id
      let calls := [FactoryCall.StopService unique_id]
      let ec := ec.assign K.interrupted Category.system
      let ss := streamInsert unique_id
      let result := streamExtract ss
      { result := String.mk result, ec := ec, calls := calls }

/-- A fragment of what `unpack` stands for, enough to run `OnReceive` on
examples: `MSGPACK_DEFINE(unique_id_)` packs a request as an array of one
element, and the bytes `0x91 n` with `n < 128` are the one-element array holding
the positive fixint `n`. Every other string is turned down here. -/
def unpackFixint (serialized_request : String) : Option Nat :=
  match serialized_request.data with
  | [a, n] => if a.toNat = 0x91 ∧ n.toNat < 128 then some n.toNat else none
  | _ => none

/-- Carry out the factory calls on a factory state, given what `StopService`
does to it. -/
def applyCalls {σ : Type} (StopService : Nat → σ → σ) (calls : List FactoryCall)
    (factory : σ) : σ :=
  calls.foldl (fun f c => match c with | FactoryCall.StopService id => StopService id f)
    factory

/-- Modelled from the spec: the running service instances held by the
`ServiceFactory` of `core/factories/service_factory.h`, which is not part of the
sources at hand, keyed by instance id. -/
structure ServiceFactory where
  running : List Nat
deriving DecidableEq, Repr

/-- Modelled from the spec: `ServiceFactory::StopService` of
`core/factories/service_factory.h`: "stops and removes the instance"; an id
that is not running leaves the factory as it is. -/
def ServiceFactory.StopService (id : Nat) (f : ServiceFactory) : ServiceFactory :=
  { running := f.running.filter (fun i => i != id) }

/-! ## `StopServiceRequest::OnReply` -/

/-- `std::isdigit`: the characters `0` to `9`. -/
def isdigit (c : Char) : Bool :=
  48 ≤ c.toNat && c.toNat ≤ 57

/-- The number a run of decimal digits denotes, accumulated from the left as
`strtoul` does in base 10. -/
def digitsValue (digits : List Char) : Nat :=
  digits.foldl (fun acc c => acc * 10 + (c.toNat - 48)) 0

/-- The part of `std::stoul` after the whitespace and the sign, for an
`unsigned long` of `w` bits: the longest run of digits is converted; no digit
at all throws `std::invalid_argument`, a value that does not fit `w` bits throws
`std::out_of_range` (both `none` here); after a minus sign the value is
negated in `unsigned long`. Characters after the digits are ignored. -/
def stoulDigits (w : Nat) (negative : Bool) (s : List Char) : Option Nat :=
  let digits := s.takeWhile isdigit
  if digits.isEmpty then none
  else
    let m := digitsValue digits
    if 2 ^ w ≤ m then none
    else some (if negative then (2 ^ w - m) % 2 ^ w else m)

/-- `std::stoul(str)` (base 10, position not asked for) for an `unsigned long`
of `w` bits, as `strtoul` parses: leading whitespace is skipped, one `-`
(code 45) or `+` (code 43) is accepted, then the digits are converted. `none`
stands for a thrown `std::exception`. -/
def stoul (w : Nat) (str : String) : Option Nat :=
  match str.data.dropWhile isspace with
  | [] => none
  | c :: rest =>
      if c.toNat = 45 then stoulDigits w true rest
      else if c.toNat = 43 then stoulDigits w false rest
      else stoulDigits w false (c :: rest)

/-- Modelled from the spec: the `ServiceStatus` record of
`services/admin/requests/service_status.h`, which is not part of the sources at
hand: `{instance_id: uint32, service_type: uint32, status_code: int32,
parameters: map<string,string>}`, in the order of the constructor call
`reply(id, 0, ec.value(), Parameters())`. -/
structure ServiceStatus where
  instance_id : Nat
  service_type : Nat
  status_code : Int
  parameters : List (String × String)
deriving DecidableEq, Repr

/-- `StopServiceRequest::OnReply`, for an `unsigned long` of `w` bits. `unpack`
is as in `OnReceive`; `OnSending` stands for `ServiceStatus::OnSending`
(`services/admin/requests/service_status.h`, not part of the sources at hand),
the msgpack serialization of the record. `ec` is a `const` reference and is
only read. -/
def StopServiceRequest.OnReply (w : Nat) (unpack : String → Option Nat)
    (OnSending : ServiceStatus → String) (serialized_request : String)
    (ec : ErrorCode) (serialized_result : String) : String :=
  match unpack serialized_request with
  | none => ""
  | some _ =>
      match stoul w serialized_result with
      | none => ""
      | some value =>
          let id := u32 value
          let reply : ServiceStatus :=
            { instance_id := id, service_type := 0, status_code := ec.value,
              parameters := [] }
          OnSending reply

/-- The `ServiceStatus reply` that `OnReply` constructs and serializes, when it
gets that far; `none` when it returns early. -/
def StopServiceRequest.replyStatus (w : Nat) (unpack : String → Option Nat)
    (serialized_request : String) (ec : ErrorCode) (serialized_result : String) :
    Option ServiceStatus :=
  match unpack serialized_request with
  | none => none
  | some _ =>
      match stoul w serialized_result with
      | none => none
      | some value =>
          some { instance_id := u32 value, service_type := 0, status_code := ec.value,
                 parameters := [] }

/-- Error values as on Linux: `boost::system::errc::interrupted` is `EINTR`, 4;
the two enumerators of `common/error/error.h` are given the values of the
`errno` constants of the same name, `EPROTOTYPE = 91` and `EINVAL = 22`. -/
def ErrorValues.linux : ErrorValues :=
  { wrong_protocol_type := 91, invalid_argument := 22, interrupted := 4 }

/-- A serialization of `ServiceStatus` to run `OnReply` on examples: the four
fields in decimal, separated by `;`, the parameters by their number. -/
def sampleOnSending (status : ServiceStatus) : String :=
  String.mk (Nat.toDigits 10 status.instance_id ++ [Char.ofNat 59]
    ++ Nat.toDigits 10 status.service_type ++ [Char.ofNat 59]
    ++ (if status.status_code < 0 then [Char.ofNat 45] else [])
    ++ Nat.toDigits 10 status.status_code.natAbs ++ [Char.ofNat 59]
    ++ Nat.toDigits 10 status.parameters.length)

/-! ## Arithmetic form of the codec -/

theorem and_ff (x : Nat) : x &&& 0x000000FF = x % 256 :=
  Nat.and_pow_two_sub_one_eq_mod x 8

theorem shl8_or (a b : Nat) (hb : b < 256) : (a <<< 8) ||| b = a * 256 + b := by
  rw [Nat.shiftLeft_eq]
  have h := Nat.mul_add_lt_is_or (i := 8) (b := b) (by simpa using hb) a
  rw [Nat.mul_comm] at h
  simpa using h.symm

theorem GetVersion_eq (V : Versions) (hV : V.IsBytes) :
    GetVersion V
      = ((V.major * 256 + V.minor) * 256 + V.transport) * 256 + V.circuit := by
  obtain ⟨h1, h2, h3, h4⟩ := hV
  have e1 : u32 V.major = V.major := by unfold u32; omega
  have e2 : u32 (V.major <<< 8) = V.major <<< 8 := by
    unfold u32; rw [Nat.shiftLeft_eq]; omega
  have e3 : (V.major <<< 8) ||| V.minor = V.major * 256 + V.minor := shl8_or _ _ h2
  have e4 : u32 (V.major * 256 + V.minor) = V.major * 256 + V.minor := by
    unfold u32; omega
  have e5 : u32 ((V.major * 256 + V.minor) <<< 8) = (V.major * 256 + V.minor) <<< 8 := by
    unfold u32; rw [Nat.shiftLeft_eq]; omega
  have e6 : ((V.major * 256 + V.minor) <<< 8) ||| V.transport
      = (V.major * 256 + V.minor) * 256 + V.transport := shl8_or _ _ h3
  have e7 : u32 ((V.major * 256 + V.minor) * 256 + V.transport)
      = (V.major * 256 + V.minor) * 256 + V.transport := by unfold u32; omega
  have e8 : u32 (((V.major * 256 + V.minor) * 256 + V.transport) <<< 8)
      = ((V.major * 256 + V.minor) * 256 + V.transport) <<< 8 := by
    unfold u32; rw [Nat.shiftLeft_eq]; omega
  have e9 : (((V.major * 256 + V.minor) * 256 + V.transport) <<< 8) ||| V.circuit
      = ((V.major * 256 + V.minor) * 256 + V.transport) * 256 + V.circuit :=
    shl8_or _ _ h4
  have e10 : u32 (((V.major * 256 + V.minor) * 256 + V.transport) * 256 + V.circuit)
      = ((V.major * 256 + V.minor) * 256 + V.transport) * 256 + V.circuit := by
    unfold u32; omega
  simp only [GetVersion, e1, e2, e3, e4, e5, e6, e7, e8, e9, e10]

theorem GetVersion_lt (V : Versions) (hV : V.IsBytes) : GetVersion V < 2 ^ 32 := by
  rw [GetVersion_eq V hV]
  obtain ⟨h1, h2, h3, h4⟩ := hV
  omega

theorem IsSupportedVersion_eq (V : Versions) (v : Nat) :
    IsSupportedVersion V v
      = ((v % 2 ^ 32 / 2 ^ 24 == V.major) && (v % 2 ^ 32 / 2 ^ 8 % 256 == V.transport)) := by
  simp only [IsSupportedVersion, u32, u8, and_ff, Nat.shiftRight_eq_div_pow]
  have a1 : v % 2 ^ 32 / 2 ^ 8 / 2 ^ 8 / 2 ^ 8 % 256 % 2 ^ 8 = v % 2 ^ 32 / 2 ^ 24 := by
    omega
  have a2 : v % 2 ^ 32 / 2 ^ 8 % 256 % 2 ^ 8 = v % 2 ^ 32 / 2 ^ 8 % 256 := by omega
  rw [a1, a2]

theorem decodeVersion_eq (v : Nat) :
    decodeVersion v
      = { major := v % 2 ^ 32 / 2 ^ 24, minor := v % 2 ^ 32 / 2 ^ 16 % 256,
          transport := v % 2 ^ 32 / 2 ^ 8 % 256, circuit := v % 256 } := by
  simp only [decodeVersion, u32, u8, and_ff, Nat.shiftRight_eq_div_pow]
  congr 1 <;> omega

/-! ## The version codec -/

theorem shl_or4 (a b c d : Nat) (hb : b < 256) (hc : c < 256) (hd : d < 256) :
    (a <<< 24) ||| (b <<< 16) ||| (c <<< 8) ||| d
      = ((a * 256 + b) * 256 + c) * 256 + d := by
  simp only [Nat.shiftLeft_eq]
  have h1 : a * 2 ^ 24 ||| b * 2 ^ 16 = 2 ^ 16 * (a * 256 + b) := by
    have h := Nat.mul_add_lt_is_or (i := 24) (b := b * 2 ^ 16) (by omega) a
    rw [Nat.mul_comm a, ← h]; omega
  have h2 : 2 ^ 16 * (a * 256 + b) ||| c * 2 ^ 8 = 2 ^ 8 * ((a * 256 + b) * 256 + c) := by
    have h := Nat.mul_add_lt_is_or (i := 16) (b := c * 2 ^ 8) (by omega) (a * 256 + b)
    rw [← h]; omega
  have h3 : 2 ^ 8 * ((a * 256 + b) * 256 + c) ||| d = ((a * 256 + b) * 256 + c) * 256 + d := by
    have h := Nat.mul_add_lt_is_or (i := 8) (b := d) (by omega) ((a * 256 + b) * 256 + c)
    rw [← h]; omega
  rw [h1, h2, h3]

/-- C1: for every 32-bit input `v`, `IsSupportedVersion(v)` is true exactly when
the major byte of `v` (bits 24..31) is the local major and the transport byte
(bits 8..15) is the local transport; two inputs that agree on these two bytes
get the same answer, whatever their minor and circuit bytes. -/
theorem IsSupportedVersion_iff (V : Versions) (v : Nat) (hv : v < 2 ^ 32) :
    (IsSupportedVersion V v = true
        ↔ v / 2 ^ 24 % 256 = V.major ∧ v / 2 ^ 8 % 256 = V.transport)
    ∧ ∀ w, w < 2 ^ 32 → w / 2 ^ 24 % 256 = v / 2 ^ 24 % 256 →
        w / 2 ^ 8 % 256 = v / 2 ^ 8 % 256 →
        IsSupportedVersion V w = IsSupportedVersion V v := by
  have key : ∀ x, x < 2 ^ 32 → IsSupportedVersion V x
      = ((x / 2 ^ 24 % 256 == V.major) && (x / 2 ^ 8 % 256 == V.transport)) := by
    intro x hx
    rw [IsSupportedVersion_eq, Nat.mod_eq_of_lt hx]
    have : x / 2 ^ 24 % 256 = x / 2 ^ 24 := by omega
    rw [this]
  refine ⟨?_, ?_⟩
  · rw [key v hv]; simp
  · intro w hw h1 h2
    rw [key v hv, key w hw, h1, h2]

theorem IsSupportedVersion_iff_witness :
    (IsSupportedVersion ⟨1, 0, 2, 0⟩ 0x01070209 = true
        ↔ 0x01070209 / 2 ^ 24 % 256 = 1 ∧ 0x01070209 / 2 ^ 8 % 256 = 2)
    ∧ ∀ w, w < 2 ^ 32 → w / 2 ^ 24 % 256 = 0x01070209 / 2 ^ 24 % 256 →
        w / 2 ^ 8 % 256 = 0x01070209 / 2 ^ 8 % 256 →
        IsSupportedVersion ⟨1, 0, 2, 0⟩ w = IsSupportedVersion ⟨1, 0, 2, 0⟩ 0x01070209 :=
  IsSupportedVersion_iff ⟨1, 0, 2, 0⟩ 0x01070209 (by decide)

/-- C3: for version constants that are bytes, `GetVersion` returns
`(major << 24) | (minor << 16) | (transport << 8) | circuit`; the value fits
32 bits and each field is read back from its byte, so nothing overflows and no
field is lost. -/
theorem GetVersion_packs (V : Versions) (hV : V.IsBytes) :
    GetVersion V
        = (V.major <<< 24) ||| (V.minor <<< 16) ||| (V.transport <<< 8) ||| V.circuit
    ∧ GetVersion V < 2 ^ 32
    ∧ GetVersion V / 2 ^ 24 = V.major
    ∧ GetVersion V / 2 ^ 16 % 256 = V.minor
    ∧ GetVersion V / 2 ^ 8 % 256 = V.transport
    ∧ GetVersion V % 256 = V.circuit := by
  have h := GetVersion_eq V hV
  obtain ⟨h1, h2, h3, h4⟩ := hV
  rw [shl_or4 _ _ _ _ h2 h3 h4, h]
  refine ⟨rfl, ?_, ?_, ?_, ?_, ?_⟩ <;> omega

theorem GetVersion_packs_witness :
    GetVersion ⟨1, 7, 2, 9⟩ = (1 <<< 24) ||| (7 <<< 16) ||| (2 <<< 8) ||| 9
    ∧ GetVersion ⟨1, 7, 2, 9⟩ < 2 ^ 32
    ∧ GetVersion ⟨1, 7, 2, 9⟩ / 2 ^ 24 = 1
    ∧ GetVersion ⟨1, 7, 2, 9⟩ / 2 ^ 16 % 256 = 7
    ∧ GetVersion ⟨1, 7, 2, 9⟩ / 2 ^ 8 % 256 = 2
    ∧ GetVersion ⟨1, 7, 2, 9⟩ % 256 = 9 :=
  GetVersion_packs ⟨1, 7, 2, 9⟩ (by decide)

/-- C4: for version constants that are bytes, extracting the fields from the
value `GetVersion` packs gives the four constants back, where the extraction is
the one of `IsSupportedVersion`: the major and transport it compares are the
ones `decodeVersion` yields. -/
theorem decodeVersion_GetVersion (V : Versions) (hV : V.IsBytes) :
    decodeVersion (GetVersion V) = V
    ∧ ∀ (L : Versions) (v : Nat), IsSupportedVersion L v
        = (((decodeVersion v).major == L.major)
            && ((decodeVersion v).transport == L.transport)) := by
  refine ⟨?_, ?_⟩
  · rw [decodeVersion_eq, GetVersion_eq V hV]
    obtain ⟨h1, h2, h3, h4⟩ := hV
    cases V with
    | mk a b c d =>
      simp only [Versions.mk.injEq] at *
      refine ⟨?_, ?_, ?_, ?_⟩ <;> omega
  · intro L v
    rw [IsSupportedVersion_eq, decodeVersion_eq]

theorem decodeVersion_GetVersion_witness :
    decodeVersion (GetVersion ⟨1, 7, 2, 9⟩) = ⟨1, 7, 2, 9⟩
    ∧ ∀ (L : Versions) (v : Nat), IsSupportedVersion L v
        = (((decodeVersion v).major == L.major)
            && ((decodeVersion v).transport == L.transport)) :=
  decodeVersion_GetVersion ⟨1, 7, 2, 9⟩ (by decide)

/-! ## One side of the handshake -/

theorem Endpoint.run_nil (V : Versions) (K : ErrorValues) (e : Endpoint) :
    e.run V K [] = e := rfl

theorem Endpoint.run_cons (V : Versions) (K : ErrorValues) (e : Endpoint)
    (c : Completion) (cs : List Completion) :
    e.run V K (c :: cs) = (e.step V K c).run V K cs := rfl

theorem Endpoint.step_done (V : Versions) (K : ErrorValues) (e : Endpoint)
    (c : Completion) (h : e.pending = []) : e.step V K c = e := by
  unfold Endpoint.step; rw [h]

theorem Endpoint.run_done (V : Versions) (K : ErrorValues) (e : Endpoint)
    (cs : List Completion) (h : e.pending = []) : e.run V K cs = e := by
  induction cs with
  | nil => rfl
  | cons c cs ih => rw [Endpoint.run_cons, Endpoint.step_done V K e c h, ih]

/-- The initiator after `DoSSFInitiate`. -/
theorem initiate_start (V : Versions) :
    Endpoint.start (DoSSFInitiate V)
      = { trace := [Action.async_write (SSFRequest.const_buffer (GetVersion V))
                      Handler.DoSSFValidReceive],
          pending := [Action.async_write (SSFRequest.const_buffer (GetVersion V))
                      Handler.DoSSFValidReceive] } := rfl

/-- The responder after `DoSSFInitiateReceive`. -/
theorem respond_start :
    Endpoint.start DoSSFInitiateReceive
      = { trace := [Action.async_read 4 Handler.DoSSFValid],
          pending := [Action.async_read 4 Handler.DoSSFValid] } := rfl

theorem initiate_write_failed (V : Versions) (K : ErrorValues) (c : Completion)
    (cs : List Completion) (h : c.ec.failed = true) :
    (Endpoint.start (DoSSFInitiate V)).run V K (c :: cs)
      = { trace := [Action.async_write (SSFRequest.const_buffer (GetVersion V))
                      Handler.DoSSFValidReceive, Action.post c.ec],
          pending := [] } := by
  rw [Endpoint.run_cons, Endpoint.run_done]
  · simp [initiate_start, Endpoint.step, complete, invoke, DoSSFValidReceive, h, Action.isAsync]
  · simp [initiate_start, Endpoint.step, complete, invoke, DoSSFValidReceive, h, Action.isAsync]

theorem initiate_write_ok (V : Versions) (K : ErrorValues) (c : Completion)
    (h : c.ec.failed = false) :
    (Endpoint.start (DoSSFInitiate V)).step V K c
      = { trace := [Action.async_write (SSFRequest.const_buffer (GetVersion V))
                      Handler.DoSSFValidReceive,
                    Action.async_read 1 Handler.DoSSFProtocolFinished],
          pending := [Action.async_read 1 Handler.DoSSFProtocolFinished] } := by
  simp [initiate_start, Endpoint.step, complete, invoke, DoSSFValidReceive, h, Action.isAsync,
    SSFReply.size]

theorem initiate_read_done (V : Versions) (K : ErrorValues) (c1 c2 : Completion)
    (cs : List Completion) (h : c1.ec.failed = false) :
    (Endpoint.start (DoSSFInitiate V)).run V K (c1 :: c2 :: cs)
      = { trace := [Action.async_write (SSFRequest.const_buffer (GetVersion V))
                      Handler.DoSSFValidReceive,
                    Action.async_read 1 Handler.DoSSFProtocolFinished,
                    Action.post (if c2.ec.failed then c2.ec
                      else if SSFReply.result c2.data then c2.ec
                      else { value := K.wrong_protocol_type, category := Category.ssf })],
          pending := [] } := by
  rw [Endpoint.run_cons, initiate_write_ok V K c1 h, Endpoint.run_cons, Endpoint.run_done]
  all_goals
    simp only [Endpoint.step, complete, invoke, DoSSFProtocolFinished]
    by_cases h2 : c2.ec.failed = true
    · simp [h2, Action.isAsync]
    · by_cases h3 : SSFReply.result c2.data = true
      · simp [h2, h3, Action.isAsync]
      · simp [h2, h3, Action.isAsync]

theorem respond_read_failed (V : Versions) (K : ErrorValues) (c : Completion)
    (cs : List Completion) (h : c.ec.failed = true) :
    (Endpoint.start DoSSFInitiateReceive).run V K (c :: cs)
      = { trace := [Action.async_read 4 Handler.DoSSFValid, Action.post c.ec],
          pending := [] } := by
  rw [Endpoint.run_cons, Endpoint.run_done]
  all_goals simp [respond_start, Endpoint.step, complete, invoke, DoSSFValid, h, Action.isAsync]

theorem respond_version_refused (V : Versions) (K : ErrorValues) (c : Completion)
    (cs : List Completion) (h : c.ec.failed = false)
    (hv : IsSupportedVersion V (u32 (SSFRequest.version c.data)) = false) :
    (Endpoint.start DoSSFInitiateReceive).run V K (c :: cs)
      = { trace := [Action.async_read 4 Handler.DoSSFValid,
                    Action.post { value := K.wrong_protocol_type, category := Category.ssf }],
          pending := [] } := by
  rw [Endpoint.run_cons, Endpoint.run_done]
  all_goals
    simp [respond_start, Endpoint.step, complete, invoke, DoSSFValid, h, hv, Action.isAsync]

theorem respond_supported (V : Versions) (K : ErrorValues) (c : Completion)
    (h : c.ec.failed = false)
    (hv : IsSupportedVersion V (u32 (SSFRequest.version c.data)) = true) :
    (Endpoint.start DoSSFInitiateReceive).step V K c
      = { trace := [Action.async_read 4 Handler.DoSSFValid,
                    Action.async_write [1] Handler.DoSSFProtocolFinished],
          pending := [Action.async_write [1] Handler.DoSSFProtocolFinished] } := by
  simp [respond_start, Endpoint.step, complete, invoke, DoSSFValid, h, hv, Action.isAsync,
    SSFReply.const_buffer]

theorem respond_write_done (V : Versions) (K : ErrorValues) (c1 c2 : Completion)
    (cs : List Completion) (h : c1.ec.failed = false)
    (hv : IsSupportedVersion V (u32 (SSFRequest.version c1.data)) = true) :
    (Endpoint.start DoSSFInitiateReceive).run V K (c1 :: c2 :: cs)
      = { trace := [Action.async_read 4 Handler.DoSSFValid,
                    Action.async_write [1] Handler.DoSSFProtocolFinished,
                    Action.post c2.ec],
          pending := [] } := by
  rw [Endpoint.run_cons, respond_supported V K c1 h hv, Endpoint.run_cons, Endpoint.run_done]
  all_goals
    simp only [Endpoint.step, complete, invoke, DoSSFProtocolFinished]
    by_cases h2 : c2.ec.failed = true
    · simp [h2, Action.isAsync]
    · simp [h2, Action.isAsync, SSFReply.result, u8]

theorem u32_u32 (n : Nat) : u32 (u32 n) = u32 n := by
  unfold u32; omega

theorem IsSupportedVersion_u32 (V : Versions) (v : Nat) :
    IsSupportedVersion V (u32 v) = IsSupportedVersion V v := by
  simp only [IsSupportedVersion, u32_u32]

theorem complete_failed (V : Versions) (K : ErrorValues) (op : Action) (c : Completion)
    (hop : op.isAsync = true) (h : c.ec.failed = true) :
    complete V K op c = [Action.post c.ec] := by
  cases op with
  | async_write buffer handler =>
      cases handler <;>
        simp [complete, invoke, DoSSFValid, DoSSFValidReceive, DoSSFProtocolFinished, h]
  | async_read size handler =>
      cases handler <;>
        simp [complete, invoke, DoSSFValid, DoSSFValidReceive, DoSSFProtocolFinished, h]
  | post ec => simp [Action.isAsync] at hop
  | call ec => simp [Action.isAsync] at hop

/-- C5: when the initiator's request write and reply read both succeed and the
result byte of the reply is 0, the continuation is given `wrong_protocol_type`
in the ssf category and no posted code is the success code; when the byte is
not 0 the continuation is given the success code of the read. The value of
`wrong_protocol_type` comes from a header outside the sources and is taken not
to be 0. -/
theorem initiate_reply_byte (V : Versions) (K : ErrorValues) (c1 c2 : Completion)
    (cs : List Completion) (b : Nat) (h1 : c1.ec.failed = false)
    (h2 : c2.ec.failed = false) (hb : c2.data = [b]) (hb8 : b < 256)
    (hK : K.wrong_protocol_type ≠ 0) :
    (b = 0 →
      ((Endpoint.start (DoSSFInitiate V)).run V K (c1 :: c2 :: cs)).CompletedWith
          { value := K.wrong_protocol_type, category := Category.ssf }
      ∧ ∀ ec ∈ ((Endpoint.start (DoSSFInitiate V)).run V K (c1 :: c2 :: cs)).posted,
          ec.value ≠ 0)
    ∧ (b ≠ 0 →
      ((Endpoint.start (DoSSFInitiate V)).run V K (c1 :: c2 :: cs)).CompletedWith c2.ec
      ∧ c2.ec.value = 0) := by
  rw [initiate_read_done V K c1 c2 cs h1]
  have hv : c2.ec.value = 0 := by simpa [ErrorCode.failed] using h2
  refine ⟨?_, ?_⟩
  · intro hb0
    subst hb0
    simp [Endpoint.CompletedWith, Endpoint.posted, Action.posted?, h2, hb, SSFReply.result,
      u8, hK]
  · intro hb0
    have hr : SSFReply.result c2.data = true := by
      simp only [hb, SSFReply.result, u8]
      have hm : b % 256 = b := by omega
      simp [hm, hb0]
    simp [Endpoint.CompletedWith, Endpoint.posted, Action.posted?, h2, hr, hv]

theorem initiate_reply_byte_witness :
    (0 = 0 →
      ((Endpoint.start (DoSSFInitiate ⟨1, 7, 2, 9⟩)).run ⟨1, 7, 2, 9⟩ ⟨91, 22, 4⟩
          [⟨ErrorCode.success, 4, []⟩, ⟨ErrorCode.success, 1, [0]⟩]).CompletedWith
          { value := 91, category := Category.ssf }
      ∧ ∀ ec ∈ ((Endpoint.start (DoSSFInitiate ⟨1, 7, 2, 9⟩)).run ⟨1, 7, 2, 9⟩ ⟨91, 22, 4⟩
          [⟨ErrorCode.success, 4, []⟩, ⟨ErrorCode.success, 1, [0]⟩]).posted,
          ec.value ≠ 0)
    ∧ (0 ≠ 0 →
      ((Endpoint.start (DoSSFInitiate ⟨1, 7, 2, 9⟩)).run ⟨1, 7, 2, 9⟩ ⟨91, 22, 4⟩
          [⟨ErrorCode.success, 4, []⟩, ⟨ErrorCode.success, 1, [0]⟩]).CompletedWith
          ErrorCode.success
      ∧ ErrorCode.success.value = 0) :=
  initiate_reply_byte ⟨1, 7, 2, 9⟩ ⟨91, 22, 4⟩ ⟨ErrorCode.success, 4, []⟩
    ⟨ErrorCode.success, 1, [0]⟩ [] 0 rfl rfl rfl (by decide) (by decide)

/-- C6: when the responder reads a request without error and its version is not
supported, no reply write is issued and the continuation is posted
`wrong_protocol_type` in the ssf category; and in any run of the responder a
write appears in the trace only if the request was read without error and its
version passed `IsSupportedVersion`. -/
theorem respond_unsupported_no_write (V : Versions) (K : ErrorValues) (c : Completion)
    (cs : List Completion) (h : c.ec.failed = false)
    (hv : IsSupportedVersion V (SSFRequest.version c.data) = false) :
    (∀ a ∈ ((Endpoint.start DoSSFInitiateReceive).run V K (c :: cs)).trace,
        ∀ buffer handler, a ≠ Action.async_write buffer handler)
    ∧ ((Endpoint.start DoSSFInitiateReceive).run V K (c :: cs)).CompletedWith
        { value := K.wrong_protocol_type, category := Category.ssf }
    ∧ ((Endpoint.start DoSSFInitiateReceive).run V K (c :: cs)).trace
        = [Action.async_read 4 Handler.DoSSFValid,
           Action.post { value := K.wrong_protocol_type, category := Category.ssf }]
    ∧ ∀ (cs1 : List Completion) (buffer : List Nat) (handler : Handler),
        Action.async_write buffer handler
            ∈ ((Endpoint.start DoSSFInitiateReceive).run V K cs1).trace →
        ∃ c1 rest, cs1 = c1 :: rest ∧ c1.ec.failed = false
          ∧ IsSupportedVersion V (SSFRequest.version c1.data) = true := by
  rw [← IsSupportedVersion_u32] at hv
  rw [respond_version_refused V K c cs h hv]
  refine ⟨?_, ?_, rfl, ?_⟩
  · intro a ha buffer handler
    simp only [List.mem_cons, List.mem_singleton, List.not_mem_nil, or_false] at ha
    rcases ha with rfl | rfl <;> simp
  · simp [Endpoint.CompletedWith, Endpoint.posted, Action.posted?]
  · intro cs1 buffer handler hmem
    cases cs1 with
    | nil => simp [Endpoint.run_nil, respond_start] at hmem
    | cons c1 rest =>
      refine ⟨c1, rest, rfl, ?_⟩
      by_cases hf : c1.ec.failed = true
      · rw [respond_read_failed V K c1 rest hf] at hmem
        simp at hmem
      · have hf0 : c1.ec.failed = false := by simpa using hf
        refine ⟨hf0, ?_⟩
        by_cases hs : IsSupportedVersion V (u32 (SSFRequest.version c1.data)) = true
        · rw [← IsSupportedVersion_u32]; exact hs
        · have hs0 : IsSupportedVersion V (u32 (SSFRequest.version c1.data)) = false := by
            simpa using hs
          rw [respond_version_refused V K c1 rest hf0 hs0] at hmem
          simp at hmem

theorem respond_unsupported_no_write_witness :
    IsSupportedVersion ⟨1, 7, 2, 9⟩ (SSFRequest.version [2, 7, 2, 9]) = false
    ∧ ((Endpoint.start DoSSFInitiateReceive).run ⟨1, 7, 2, 9⟩ ⟨91, 22, 4⟩
        [⟨ErrorCode.success, 4, [2, 7, 2, 9]⟩]).trace
        = [Action.async_read 4 Handler.DoSSFValid,
           Action.post { value := 91, category := Category.ssf }] :=
  ⟨by decide,
   (respond_unsupported_no_write ⟨1, 7, 2, 9⟩ ⟨91, 22, 4⟩ ⟨ErrorCode.success, 4, [2, 7, 2, 9]⟩
      [] rfl (by decide)).2.2.1⟩

theorem respond_run_complete (V : Versions) (K : ErrorValues) (c1 c2 : Completion)
    (cs : List Completion) :
    ∃ ios ec, (Endpoint.start DoSSFInitiateReceive).run V K (c1 :: c2 :: cs)
        = { trace := ios ++ [Action.post ec], pending := [] }
      ∧ ∀ a ∈ ios, a.isAsync = true := by
  by_cases hf : c1.ec.failed = true
  · exact ⟨[Action.async_read 4 Handler.DoSSFValid], c1.ec,
      respond_read_failed V K c1 _ hf, by simp [Action.isAsync]⟩
  · have hf0 : c1.ec.failed = false := by simpa using hf
    by_cases hs : IsSupportedVersion V (u32 (SSFRequest.version c1.data)) = true
    · exact ⟨[Action.async_read 4 Handler.DoSSFValid,
          Action.async_write [1] Handler.DoSSFProtocolFinished], c2.ec,
        respond_write_done V K c1 c2 cs hf0 hs, by simp [Action.isAsync]⟩
    · have hs0 : IsSupportedVersion V (u32 (SSFRequest.version c1.data)) = false := by
        simpa using hs
      exact ⟨[Action.async_read 4 Handler.DoSSFValid], _,
        respond_version_refused V K c1 _ hf0 hs0, by simp [Action.isAsync]⟩

theorem initiate_run_complete (V : Versions) (K : ErrorValues) (c1 c2 : Completion)
    (cs : List Completion) :
    ∃ ios ec, (Endpoint.start (DoSSFInitiate V)).run V K (c1 :: c2 :: cs)
        = { trace := ios ++ [Action.post ec], pending := [] }
      ∧ ∀ a ∈ ios, a.isAsync = true := by
  by_cases hf : c1.ec.failed = true
  · exact ⟨[Action.async_write (SSFRequest.const_buffer (GetVersion V))
        Handler.DoSSFValidReceive], c1.ec,
      initiate_write_failed V K c1 _ hf, by simp [Action.isAsync]⟩
  · have hf0 : c1.ec.failed = false := by simpa using hf
    exact ⟨[Action.async_write (SSFRequest.const_buffer (GetVersion V))
        Handler.DoSSFValidReceive, Action.async_read 1 Handler.DoSSFProtocolFinished], _,
      initiate_read_done V K c1 c2 cs hf0, by simp [Action.isAsync]⟩

theorem initiate_complete_shape (V : Versions) (K : ErrorValues) (cs : List Completion)
    (h : ((Endpoint.start (DoSSFInitiate V)).run V K cs).pending = []) :
    ∃ ios ec, ((Endpoint.start (DoSSFInitiate V)).run V K cs).trace
        = ios ++ [Action.post ec] ∧ ∀ a ∈ ios, a.isAsync = true := by
  match cs, h with
  | [], h => simp [Endpoint.run_nil, initiate_start] at h
  | [c1], h =>
      by_cases hf : c1.ec.failed = true
      · rw [initiate_write_failed V K c1 _ hf]
        exact ⟨[_], c1.ec, rfl, by simp [Action.isAsync]⟩
      · have hf0 : c1.ec.failed = false := by simpa using hf
        rw [Endpoint.run_cons, initiate_write_ok V K c1 hf0, Endpoint.run_nil] at h
        simp at h
  | c1 :: c2 :: rest, _ =>
      obtain ⟨ios, ec, he, hio⟩ := initiate_run_complete V K c1 c2 rest
      exact ⟨ios, ec, by rw [he], hio⟩

theorem respond_complete_shape (V : Versions) (K : ErrorValues) (cs : List Completion)
    (h : ((Endpoint.start DoSSFInitiateReceive).run V K cs).pending = []) :
    ∃ ios ec, ((Endpoint.start DoSSFInitiateReceive).run V K cs).trace
        = ios ++ [Action.post ec] ∧ ∀ a ∈ ios, a.isAsync = true := by
  match cs, h with
  | [], h => simp [Endpoint.run_nil, respond_start] at h
  | [c1], h =>
      by_cases hf : c1.ec.failed = true
      · rw [respond_read_failed V K c1 _ hf]
        exact ⟨[_], c1.ec, rfl, by simp [Action.isAsync]⟩
      · have hf0 : c1.ec.failed = false := by simpa using hf
        by_cases hs : IsSupportedVersion V (u32 (SSFRequest.version c1.data)) = true
        · rw [Endpoint.run_cons, respond_supported V K c1 hf0 hs, Endpoint.run_nil] at h
          simp at h
        · have hs0 : IsSupportedVersion V (u32 (SSFRequest.version c1.data)) = false := by
            simpa using hs
          rw [respond_version_refused V K c1 _ hf0 hs0]
          exact ⟨[_], _, rfl, by simp [Action.isAsync]⟩
  | c1 :: c2 :: rest, _ =>
      obtain ⟨ios, ec, he, hio⟩ := respond_run_complete V K c1 c2 rest
      exact ⟨ios, ec, by rw [he], hio⟩

/-- C7: on the initiate path and on the respond path, whatever the completions
say, the run is complete once two operations have completed, and the trace of
every complete run is a list of reads and writes followed by exactly one `post`
of the continuation: the continuation is scheduled once, by `post` and never by
a direct call, and no read or write follows it. -/
theorem continuation_posted_once (V : Versions) (K : ErrorValues)
    (cs : List Completion) :
    ∀ e ∈ [(Endpoint.start (DoSSFInitiate V)).run V K cs,
           (Endpoint.start DoSSFInitiateReceive).run V K cs],
      (2 ≤ cs.length → e.pending = [])
      ∧ (e.pending = [] →
          ∃ ios ec, e.trace = ios ++ [Action.post ec] ∧ (∀ a ∈ ios, a.isAsync = true)
            ∧ e.posted = [ec] ∧ ∀ ec1, Action.call ec1 ∉ e.trace) := by
  have shape : ∀ (e : Endpoint),
      (∃ ios ec, e.trace = ios ++ [Action.post ec] ∧ ∀ a ∈ ios, a.isAsync = true) →
      ∃ ios ec, e.trace = ios ++ [Action.post ec] ∧ (∀ a ∈ ios, a.isAsync = true)
        ∧ e.posted = [ec] ∧ ∀ ec1, Action.call ec1 ∉ e.trace := by
    rintro e ⟨ios, ec, ht, hio⟩
    refine ⟨ios, ec, ht, hio, ?_, ?_⟩
    · have hnone : ios.filterMap Action.posted? = [] := by
        rw [List.filterMap_eq_nil_iff]
        intro a ha
        have := hio a ha
        cases a <;> simp_all [Action.isAsync, Action.posted?]
      simp [Endpoint.posted, ht, List.filterMap_append, hnone, Action.posted?]
    · intro ec1 hmem
      rw [ht, List.mem_append] at hmem
      rcases hmem with hmem | hmem
      · have := hio _ hmem
        simp [Action.isAsync] at this
      · simp at hmem
  intro e he
  simp only [List.mem_cons, List.mem_singleton, List.not_mem_nil, or_false] at he
  rcases he with rfl | rfl
  · refine ⟨?_, fun h => shape _ (initiate_complete_shape V K cs h)⟩
    intro hlen
    match cs, hlen with
    | c1 :: c2 :: rest, _ =>
        obtain ⟨ios, ec, he, _⟩ := initiate_run_complete V K c1 c2 rest
        rw [he]
  · refine ⟨?_, fun h => shape _ (respond_complete_shape V K cs h)⟩
    intro hlen
    match cs, hlen with
    | c1 :: c2 :: rest, _ =>
        obtain ⟨ios, ec, he, _⟩ := respond_run_complete V K c1 c2 rest
        rw [he]

theorem continuation_posted_once_witness :
    2 ≤ [(⟨ErrorCode.success, 4, []⟩ : Completion), ⟨ErrorCode.success, 1, [1]⟩].length
    ∧ ((Endpoint.start (DoSSFInitiate ⟨1, 7, 2, 9⟩)).run ⟨1, 7, 2, 9⟩ ⟨91, 22, 4⟩
        [⟨ErrorCode.success, 4, []⟩, ⟨ErrorCode.success, 1, [1]⟩]).pending = [] :=
  ⟨by decide,
   (continuation_posted_once ⟨1, 7, 2, 9⟩ ⟨91, 22, 4⟩
      [⟨ErrorCode.success, 4, []⟩, ⟨ErrorCode.success, 1, [1]⟩] _
      (List.mem_cons_self _ _)).1 (by decide)⟩

/-- C8: a step that completes with a transport error ends the handshake there.
Whatever operation is pending and whatever its buffer holds, its handler does
nothing but post that same error code; and so the initiator's failed request
write, its failed reply read, the responder's failed request read and its
failed reply write each leave a complete run whose trace ends with the post of
that code, with no further read or write. -/
theorem transport_error_terminal (V : Versions) (K : ErrorValues) :
    (∀ (op : Action) (c : Completion), op.isAsync = true → c.ec.failed = true →
        complete V K op c = [Action.post c.ec])
    ∧ (∀ (c : Completion) (cs : List Completion), c.ec.failed = true →
        (Endpoint.start (DoSSFInitiate V)).run V K (c :: cs)
          = { trace := [Action.async_write (SSFRequest.const_buffer (GetVersion V))
                          Handler.DoSSFValidReceive, Action.post c.ec],
              pending := [] })
    ∧ (∀ (c1 c2 : Completion) (cs : List Completion), c1.ec.failed = false →
        c2.ec.failed = true →
        (Endpoint.start (DoSSFInitiate V)).run V K (c1 :: c2 :: cs)
          = { trace := [Action.async_write (SSFRequest.const_buffer (GetVersion V))
                          Handler.DoSSFValidReceive,
                        Action.async_read 1 Handler.DoSSFProtocolFinished,
                        Action.post c2.ec],
              pending := [] })
    ∧ (∀ (c : Completion) (cs : List Completion), c.ec.failed = true →
        (Endpoint.start DoSSFInitiateReceive).run V K (c :: cs)
          = { trace := [Action.async_read 4 Handler.DoSSFValid, Action.post c.ec],
              pending := [] })
    ∧ (∀ (c1 c2 : Completion) (cs : List Completion), c1.ec.failed = false →
        IsSupportedVersion V (SSFRequest.version c1.data) = true →
        c2.ec.failed = true →
        (Endpoint.start DoSSFInitiateReceive).run V K (c1 :: c2 :: cs)
          = { trace := [Action.async_read 4 Handler.DoSSFValid,
                        Action.async_write [1] Handler.DoSSFProtocolFinished,
                        Action.post c2.ec],
              pending := [] }) := by
  refine ⟨complete_failed V K, initiate_write_failed V K, ?_, respond_read_failed V K, ?_⟩
  · intro c1 c2 cs h1 h2
    rw [initiate_read_done V K c1 c2 cs h1]
    simp [h2]
  · intro c1 c2 cs h1 hv h2
    rw [← IsSupportedVersion_u32] at hv
    exact respond_write_done V K c1 c2 cs h1 hv

theorem transport_error_terminal_witness :
    (Endpoint.start DoSSFInitiateReceive).run ⟨1, 7, 2, 9⟩ ⟨91, 22, 4⟩
        [⟨ErrorCode.success, 4, [1, 0, 2, 0]⟩, ⟨⟨104, Category.system⟩, 0, []⟩]
      = { trace := [Action.async_read 4 Handler.DoSSFValid,
                    Action.async_write [1] Handler.DoSSFProtocolFinished,
                    Action.post ⟨104, Category.system⟩],
          pending := [] } :=
  (transport_error_terminal ⟨1, 7, 2, 9⟩ ⟨91, 22, 4⟩).2.2.2.2
    ⟨ErrorCode.success, 4, [1, 0, 2, 0]⟩ ⟨⟨104, Category.system⟩, 0, []⟩ [] rfl
    (by decide) rfl

/-! ## Both sides of the handshake -/

theorem SSFRequest.version_const_buffer (v : Nat) :
    SSFRequest.version (SSFRequest.const_buffer v) = u32 v := by
  simp only [SSFRequest.version, SSFRequest.const_buffer, u8, u32]
  omega

theorem accepted_eq (Vi Vr : Versions) (hi : Vi.IsBytes) :
    IsSupportedVersion Vr (u32 (SSFRequest.version (SSFRequest.const_buffer (GetVersion Vi))))
      = ((Vi.major == Vr.major) && (Vi.transport == Vr.transport)) := by
  rw [SSFRequest.version_const_buffer, u32_u32, IsSupportedVersion_u32, IsSupportedVersion_eq,
    GetVersion_eq Vi hi]
  obtain ⟨h1, h2, h3, h4⟩ := hi
  have a1 : (((Vi.major * 256 + Vi.minor) * 256 + Vi.transport) * 256 + Vi.circuit) % 2 ^ 32
      / 2 ^ 24 = Vi.major := by omega
  have a2 : (((Vi.major * 256 + Vi.minor) * 256 + Vi.transport) * 256 + Vi.circuit) % 2 ^ 32
      / 2 ^ 8 % 256 = Vi.transport := by omega
  rw [a1, a2]

theorem Handshake.step_phase (Vi Vr : Versions) (K : ErrorValues) (p : Fin 6) (x : Side) :
    (phaseState Vi K p).step Vi Vr K x
      = phaseState Vi K (nextPhase (IsSupportedVersion Vr
          (u32 (SSFRequest.version (SSFRequest.const_buffer (GetVersion Vi))))) p x) := by
  have hlen : (SSFRequest.const_buffer (GetVersion Vi)).length = 4 := rfl
  generalize hS : IsSupportedVersion Vr
    (u32 (SSFRequest.version (SSFRequest.const_buffer (GetVersion Vi)))) = S
  fin_cases p <;> cases x <;> cases S <;>
    simp [phaseState, nextPhase, Handshake.step, Handshake.start, Endpoint.advance, reliable,
      Endpoint.step, Endpoint.start, complete, invoke, DoSSFInitiate, DoSSFInitiateReceive,
      DoSSFValid, DoSSFValidReceive, DoSSFProtocolFinished, ErrorCode.success,
      ErrorCode.failed, Action.isAsync, SSFRequest.size, SSFReply.size, SSFReply.const_buffer,
      SSFReply.result, u8, hlen, hS, List.take_of_length_le, List.drop_of_length_le]

theorem Handshake.run_phase (Vi Vr : Versions) (K : ErrorValues) (s : List Side) :
    ∀ p : Fin 6, (phaseState Vi K p).run Vi Vr K s
      = phaseState Vi K (s.foldl (nextPhase (IsSupportedVersion Vr
          (u32 (SSFRequest.version (SSFRequest.const_buffer (GetVersion Vi)))))) p) := by
  induction s with
  | nil => intro p; rfl
  | cons x xs ih =>
      intro p
      simp only [Handshake.run, List.foldl_cons] at ih ⊢
      rw [Handshake.step_phase, ih]

theorem nextPhase_invariant :
    ∀ (a : Bool) (p : Fin 6) (x : Side), (if a then p ≠ 5 else p = 0 ∨ p = 1 ∨ p = 5) →
      (if a then nextPhase a p x ≠ 5
        else nextPhase a p x = 0 ∨ nextPhase a p x = 1 ∨ nextPhase a p x = 5) := by
  intro a p x
  cases a <;> cases x <;> fin_cases p <;> decide

theorem nextPhase_reachable (a : Bool) (s : List Side) :
    ∀ p : Fin 6, (if a then p ≠ 5 else p = 0 ∨ p = 1 ∨ p = 5) →
      (if a then s.foldl (nextPhase a) p ≠ 5
        else s.foldl (nextPhase a) p = 0 ∨ s.foldl (nextPhase a) p = 1
          ∨ s.foldl (nextPhase a) p = 5) := by
  induction s with
  | nil => intro p h; exact h
  | cons x xs ih =>
      intro p h
      rw [List.foldl_cons]
      exact ih _ (nextPhase_invariant a p x h)

theorem nextPhase_settles :
    ∀ (a : Bool) (p : Fin 6), (if a then p ≠ 5 else p = 0 ∨ p = 1 ∨ p = 5) →
      (roundRobin 3).foldl (nextPhase a) p = if a then 4 else 5 := by
  decide

theorem nextPhase_done :
    ∀ (a : Bool) (p : Fin 6), (if a then p ≠ 5 else p = 0 ∨ p = 1 ∨ p = 5) →
      ((p = 3 ∨ p = 4 ∨ p = 5) → (p = 5 ↔ a = false)) ∧ (p = 4 → a = true) := by
  decide

/-- After any interleaving, three more rounds in which both sides get to run
leave the handshake in its final state: phase 4 when the responder supports the
initiator's version, phase 5 when it does not. -/
theorem Handshake.run_settled (Vi Vr : Versions) (K : ErrorValues) (s : List Side) :
    (Handshake.start Vi).run Vi Vr K (s ++ roundRobin 3)
      = phaseState Vi K
          (if IsSupportedVersion Vr
              (u32 (SSFRequest.version (SSFRequest.const_buffer (GetVersion Vi))))
            then 4 else 5) := by
  have h0 : Handshake.start Vi = phaseState Vi K 0 := rfl
  rw [h0, Handshake.run_phase, List.foldl_append]
  congr 1
  apply nextPhase_settles
  apply nextPhase_reachable
  cases IsSupportedVersion Vr
    (u32 (SSFRequest.version (SSFRequest.const_buffer (GetVersion Vi)))) <;> simp

theorem Handshake.run_is_phase (Vi Vr : Versions) (K : ErrorValues) (t : List Side) :
    ∃ p : Fin 6, (Handshake.start Vi).run Vi Vr K t = phaseState Vi K p
      ∧ (if IsSupportedVersion Vr
            (u32 (SSFRequest.version (SSFRequest.const_buffer (GetVersion Vi))))
          then p ≠ 5 else p = 0 ∨ p = 1 ∨ p = 5) := by
  have h0 : Handshake.start Vi = phaseState Vi K 0 := rfl
  refine ⟨_, by rw [h0, Handshake.run_phase], ?_⟩
  apply nextPhase_reachable
  cases IsSupportedVersion Vr
    (u32 (SSFRequest.version (SSFRequest.const_buffer (GetVersion Vi)))) <;> simp

theorem phaseState_responder_done (Vi : Versions) (K : ErrorValues) (p : Fin 6)
    (ec : ErrorCode) (h : (phaseState Vi K p).responder.CompletedWith ec) :
    (p = 3 ∨ p = 4 ∨ p = 5)
    ∧ ec = (if p = 5 then { value := K.wrong_protocol_type, category := Category.ssf }
            else ErrorCode.success) := by
  obtain ⟨h1, h2⟩ := h
  fin_cases p <;>
    simp_all [phaseState, Handshake.start, Endpoint.start, DoSSFInitiateReceive,
      Endpoint.posted, Action.posted?, Action.isAsync]

/-- C2: the initiator runs `DoSSFInitiate` with version bytes `Vi`, the
responder runs `DoSSFInitiateReceive` with versions `Vr`, on a stream where no
read or write fails. After any interleaving `s` of the two sides followed by
three rounds in which both get to run: the responder has completed; it has
completed with success exactly when the majors are equal and the transports are
equal, and then the initiator has completed with success too; the outcome of
both sides is the same for any other versions with these majors and transports,
whatever their minor and circuit; and under any interleaving at all a responder
that has completed has done so with success exactly when majors and transports
are equal. The value of `wrong_protocol_type` comes from a header outside the
sources and is taken not to be 0. -/
theorem handshake_outcome (Vi Vr : Versions) (K : ErrorValues) (hi : Vi.IsBytes)
    (hK : K.wrong_protocol_type ≠ 0) (s : List Side) :
    (∃ ec, ((Handshake.start Vi).run Vi Vr K (s ++ roundRobin 3)).responder.CompletedWith ec)
    ∧ ((∃ ec, ((Handshake.start Vi).run Vi Vr K (s ++ roundRobin 3)).responder.CompletedWith ec
          ∧ ec.value = 0)
        ↔ Vi.major = Vr.major ∧ Vi.transport = Vr.transport)
    ∧ (Vi.major = Vr.major ∧ Vi.transport = Vr.transport →
        ∃ ec, ((Handshake.start Vi).run Vi Vr K (s ++ roundRobin 3)).initiator.CompletedWith ec
          ∧ ec.value = 0)
    ∧ (∀ (Wi Wr : Versions) (t : List Side), Wi.IsBytes →
        Wi.major = Vi.major → Wi.transport = Vi.transport →
        Wr.major = Vr.major → Wr.transport = Vr.transport →
        ((Handshake.start Wi).run Wi Wr K (t ++ roundRobin 3)).responder.posted
            = ((Handshake.start Vi).run Vi Vr K (s ++ roundRobin 3)).responder.posted
        ∧ ((Handshake.start Wi).run Wi Wr K (t ++ roundRobin 3)).responder.pending
            = ((Handshake.start Vi).run Vi Vr K (s ++ roundRobin 3)).responder.pending
        ∧ ((Handshake.start Wi).run Wi Wr K (t ++ roundRobin 3)).initiator.posted
            = ((Handshake.start Vi).run Vi Vr K (s ++ roundRobin 3)).initiator.posted
        ∧ ((Handshake.start Wi).run Wi Wr K (t ++ roundRobin 3)).initiator.pending
            = ((Handshake.start Vi).run Vi Vr K (s ++ roundRobin 3)).initiator.pending)
    ∧ (∀ (t : List Side) (ec : ErrorCode),
        ((Handshake.start Vi).run Vi Vr K t).responder.CompletedWith ec →
        (ec.value = 0 ↔ Vi.major = Vr.major ∧ Vi.transport = Vr.transport)) := by
  have hacc := accepted_eq Vi Vr hi
  have hmatch : (IsSupportedVersion Vr
      (u32 (SSFRequest.version (SSFRequest.const_buffer (GetVersion Vi)))) = true)
      ↔ Vi.major = Vr.major ∧ Vi.transport = Vr.transport := by
    rw [hacc]; simp
  refine ⟨?_, ?_, ?_, ?_, ?_⟩
  · rw [Handshake.run_settled]
    by_cases hS : IsSupportedVersion Vr
        (u32 (SSFRequest.version (SSFRequest.const_buffer (GetVersion Vi)))) = true
    · exact ⟨ErrorCode.success, by
        simp [hS, phaseState, Endpoint.CompletedWith, Endpoint.posted, Action.posted?]⟩
    · exact ⟨{ value := K.wrong_protocol_type, category := Category.ssf }, by
        simp [hS, phaseState, Endpoint.CompletedWith, Endpoint.posted, Action.posted?]⟩
  · rw [Handshake.run_settled, ← hmatch]
    by_cases hS : IsSupportedVersion Vr
        (u32 (SSFRequest.version (SSFRequest.const_buffer (GetVersion Vi)))) = true
    · simp only [hS, if_true, iff_true]
      exact ⟨ErrorCode.success, by
        simp [phaseState, Endpoint.CompletedWith, Endpoint.posted, Action.posted?], rfl⟩
    · have hS0 : IsSupportedVersion Vr
          (u32 (SSFRequest.version (SSFRequest.const_buffer (GetVersion Vi)))) = false := by
        simpa using hS
      rw [hS0]
      refine ⟨?_, fun h => absurd h (by decide)⟩
      rintro ⟨ec, ⟨_, hp⟩, hv⟩
      simp [phaseState, Endpoint.posted, Action.posted?] at hp
      rw [← hp] at hv
      exact absurd hv hK
  · intro hm
    rw [Handshake.run_settled, hmatch.mpr hm]
    exact ⟨ErrorCode.success, by
      simp [phaseState, Endpoint.CompletedWith, Endpoint.posted, Action.posted?], rfl⟩
  · intro Wi Wr t hWi e1 e2 e3 e4
    have hW := accepted_eq Wi Wr hWi
    rw [e1, e2, e3, e4, ← hacc] at hW
    rw [Handshake.run_settled, Handshake.run_settled, hW]
    cases IsSupportedVersion Vr
      (u32 (SSFRequest.version (SSFRequest.const_buffer (GetVersion Vi)))) <;>
      simp [phaseState, Endpoint.posted, Action.posted?]
  · intro t ec hc
    obtain ⟨p, hp, hinv⟩ := Handshake.run_is_phase Vi Vr K t
    rw [hp] at hc
    obtain ⟨hdone, hec⟩ := phaseState_responder_done Vi K p ec hc
    rw [← hmatch]
    have hd := (nextPhase_done _ p hinv).1 hdone
    by_cases h5 : p = 5
    · have hf := hd.mp h5
      rw [hec, hf]
      simp [h5, hK]
    · have hne : ¬ (IsSupportedVersion Vr
          (u32 (SSFRequest.version (SSFRequest.const_buffer (GetVersion Vi)))) = false) :=
        fun hf => h5 (hd.mpr hf)
      rw [hec]
      simp only [h5, if_false]
      simp only [Bool.not_eq_false] at hne
      simp [hne, ErrorCode.success]

theorem handshake_outcome_witness :
    (⟨1, 7, 2, 9⟩ : Versions).IsBytes ∧ (91 : Int) ≠ 0
    ∧ ∃ ec, ((Handshake.start ⟨1, 7, 2, 9⟩).run ⟨1, 7, 2, 9⟩ ⟨1, 3, 2, 4⟩ ⟨91, 22, 4⟩
        ([Side.responder, Side.initiator] ++ roundRobin 3)).responder.CompletedWith ec :=
  ⟨by decide, by decide,
   (handshake_outcome ⟨1, 7, 2, 9⟩ ⟨1, 3, 2, 4⟩ ⟨91, 22, 4⟩ (by decide) (by decide)
      [Side.responder, Side.initiator]).1⟩

/-! ## `StopServiceRequest::OnReceive` -/

theorem digitChar_not_space (d : Nat) (h : d < 10) : isspace (Nat.digitChar d) = false := by
  interval_cases d <;> decide

theorem toDigitsCore_not_space (fuel : Nat) :
    ∀ (n : Nat) (acc : List Char), (∀ c ∈ acc, isspace c = false) →
      ∀ c ∈ Nat.toDigitsCore 10 fuel n acc, isspace c = false := by
  induction fuel with
  | zero => intro n acc hacc c hc; simpa [Nat.toDigitsCore] using hacc c hc
  | succ fuel ih =>
      intro n acc hacc c hc
      simp only [Nat.toDigitsCore] at hc
      have hcons : ∀ c ∈ Nat.digitChar (n % 10) :: acc, isspace c = false := by
        intro c hc
        rcases List.mem_cons.mp hc with rfl | hc
        · exact digitChar_not_space _ (Nat.mod_lt _ (by decide))
        · exact hacc c hc
      split at hc
      · exact hcons c hc
      · exact ih _ _ hcons c hc

theorem streamExtract_of_no_space (l : List Char) (h : ∀ c ∈ l, isspace c = false) :
    streamExtract l = l := by
  unfold streamExtract
  have h1 : l.dropWhile isspace = l := by
    cases l with
    | nil => rfl
    | cons a l => simp [List.dropWhile, h a (List.mem_cons_self _ _)]
  rw [h1, List.takeWhile_eq_self_iff]
  intro c hc
  simp [h c hc]

theorem streamExtract_streamInsert (n : Nat) :
    String.mk (streamExtract (streamInsert n)) = Nat.repr n := by
  rw [streamExtract_of_no_space]
  · rfl
  · exact toDigitsCore_not_space _ _ _ (by simp)

/-- C9: when the serialized request deserializes to the 32-bit instance id `n`,
`OnReceive` calls `StopService` once, with `n`, and makes no other call on the
factory; it returns the decimal string of `n` and sets the status code to
`errc::interrupted` in the system category. The factory is only written to,
never read, so the string and the code are the same whether or not `n` was
running. The value of `errc::interrupted` comes from a header outside the
sources and is taken not to be 0. -/
theorem OnReceive_stops_and_echoes (K : ErrorValues) (unpack : String → Option Nat)
    (serialized_request : String) (ec : ErrorCode) (n : Nat) (hn : n < 2 ^ 32)
    (hreq : unpack serialized_request = some n) (hK : K.interrupted ≠ 0) :
    (StopServiceRequest.OnReceive K unpack serialized_request ec).calls
        = [FactoryCall.StopService n]
    ∧ (StopServiceRequest.OnReceive K unpack serialized_request ec).result = Nat.repr n
    ∧ (StopServiceRequest.OnReceive K unpack serialized_request ec).ec
        = { value := K.interrupted, category := Category.system }
    ∧ (StopServiceRequest.OnReceive K unpack serialized_request ec).ec.value ≠ 0
    ∧ (∀ (σ : Type) (StopService : Nat → σ → σ) (factory : σ),
        applyCalls StopService
            (StopServiceRequest.OnReceive K unpack serialized_request ec).calls factory
          = StopService n factory)
    ∧ (∀ f : ServiceFactory,
        (applyCalls ServiceFactory.StopService
            (StopServiceRequest.OnReceive K unpack serialized_request ec).calls f).running
          = f.running.filter (fun i => i != n)) := by
  have hu : u32 n = n := Nat.mod_eq_of_lt hn
  refine ⟨?_, ?_, ?_, ?_, ?_, ?_⟩ <;>
    simp [StopServiceRequest.OnReceive, hreq, hu, streamExtract_streamInsert,
      ErrorCode.assign, applyCalls, ServiceFactory.StopService, hK]

theorem OnReceive_stops_and_echoes_witness :
    (7 : Nat) < 2 ^ 32 ∧ (4 : Int) ≠ 0
    ∧ unpackFixint (String.mk [Char.ofNat 0x91, Char.ofNat 7]) = some 7
    ∧ (StopServiceRequest.OnReceive ⟨91, 22, 4⟩ unpackFixint
        (String.mk [Char.ofNat 0x91, Char.ofNat 7]) ErrorCode.success).calls
        = [FactoryCall.StopService 7]
    ∧ (StopServiceRequest.OnReceive ⟨91, 22, 4⟩ unpackFixint
        (String.mk [Char.ofNat 0x91, Char.ofNat 7]) ErrorCode.success).result = Nat.repr 7 :=
  ⟨by decide, by decide, by decide,
   (OnReceive_stops_and_echoes ⟨91, 22, 4⟩ unpackFixint
      (String.mk [Char.ofNat 0x91, Char.ofNat 7]) ErrorCode.success 7
      (by decide) (by decide) (by decide)).1,
   (OnReceive_stops_and_echoes ⟨91, 22, 4⟩ unpackFixint
      (String.mk [Char.ofNat 0x91, Char.ofNat 7]) ErrorCode.success 7
      (by decide) (by decide) (by decide)).2.1⟩

/-- C10: when the payload does not deserialize, `OnReceive` sets the status
code to `invalid_argument` in the ssf category, returns the empty string and
makes no call on the service factory, so whatever `StopService` does, the
factory and its running instances are as before. -/
theorem OnReceive_malformed (K : ErrorValues) (unpack : String → Option Nat)
    (serialized_request : String) (ec : ErrorCode)
    (hreq : unpack serialized_request = none) :
    (StopServiceRequest.OnReceive K unpack serialized_request ec).ec
        = { value := K.invalid_argument, category := Category.ssf }
    ∧ (StopServiceRequest.OnReceive K unpack serialized_request ec).result = ""
    ∧ (StopServiceRequest.OnReceive K unpack serialized_request ec).calls = []
    ∧ (∀ (σ : Type) (StopService : Nat → σ → σ) (factory : σ),
        applyCalls StopService
            (StopServiceRequest.OnReceive K unpack serialized_request ec).calls factory
          = factory)
    ∧ (∀ f : ServiceFactory,
        (applyCalls ServiceFactory.StopService
            (StopServiceRequest.OnReceive K unpack serialized_request ec).calls f).running
          = f.running) := by
  refine ⟨?_, ?_, ?_, ?_, ?_⟩ <;>
    simp [StopServiceRequest.OnReceive, hreq, ErrorCode.assign, applyCalls]

theorem OnReceive_malformed_witness :
    unpackFixint (String.mk [Char.ofNat 0xc0]) = none
    ∧ (StopServiceRequest.OnReceive ⟨91, 22, 4⟩ unpackFixint (String.mk [Char.ofNat 0xc0])
        ErrorCode.success).ec = { value := 22, category := Category.ssf } :=
  ⟨by decide,
   (OnReceive_malformed ⟨91, 22, 4⟩ unpackFixint (String.mk [Char.ofNat 0xc0])
      ErrorCode.success (by decide)).1⟩

/-! ## Decimal text and `std::stoul` -/

theorem digitChar_isdigit (d : Nat) (h : d < 10) : isdigit (Nat.digitChar d) = true := by
  interval_cases d <;> decide

theorem digitChar_value (d : Nat) (h : d < 10) : (Nat.digitChar d).toNat - 48 = d := by
  interval_cases d <;> decide

theorem isdigit_not_space (c : Char) (h : isdigit c = true) : isspace c = false := by
  simp only [isdigit, Bool.and_eq_true, decide_eq_true_eq] at h
  simp only [isspace, Bool.or_eq_false_iff, beq_eq_false_iff_ne, ne_eq, Bool.and_eq_false_iff,
    decide_eq_false_iff_not]
  omega

theorem isdigit_not_sign (c : Char) (h : isdigit c = true) : c.toNat ≠ 45 ∧ c.toNat ≠ 43 := by
  simp only [isdigit, Bool.and_eq_true, decide_eq_true_eq] at h
  omega

theorem toDigitsCore_append (fuel : Nat) :
    ∀ (n : Nat) (acc : List Char),
      Nat.toDigitsCore 10 fuel n acc = Nat.toDigitsCore 10 fuel n [] ++ acc := by
  induction fuel with
  | zero => intro n acc; simp [Nat.toDigitsCore]
  | succ fuel ih =>
      intro n acc
      simp only [Nat.toDigitsCore]
      by_cases h : n / 10 = 0
      · simp [h]
      · simp only [h, if_false]
        rw [ih (n / 10) (Nat.digitChar (n % 10) :: acc), ih (n / 10) [Nat.digitChar (n % 10)]]
        simp

theorem toDigitsCore_isdigit (fuel : Nat) :
    ∀ (n : Nat) (acc : List Char), (∀ c ∈ acc, isdigit c = true) →
      ∀ c ∈ Nat.toDigitsCore 10 fuel n acc, isdigit c = true := by
  induction fuel with
  | zero => intro n acc hacc c hc; simpa [Nat.toDigitsCore] using hacc c hc
  | succ fuel ih =>
      intro n acc hacc c hc
      simp only [Nat.toDigitsCore] at hc
      have hcons : ∀ c ∈ Nat.digitChar (n % 10) :: acc, isdigit c = true := by
        intro c hc
        rcases List.mem_cons.mp hc with rfl | hc
        · exact digitChar_isdigit _ (Nat.mod_lt _ (by decide))
        · exact hacc c hc
      split at hc
      · exact hcons c hc
      · exact ih _ _ hcons c hc

theorem digitsValue_append_singleton (ds : List Char) (c : Char) :
    digitsValue (ds ++ [c]) = digitsValue ds * 10 + (c.toNat - 48) := by
  simp [digitsValue, List.foldl_append]

theorem digitsValue_toDigitsCore (fuel : Nat) :
    ∀ n : Nat, n < fuel → digitsValue (Nat.toDigitsCore 10 fuel n []) = n := by
  induction fuel with
  | zero => intro n h; omega
  | succ fuel ih =>
      intro n hn
      simp only [Nat.toDigitsCore]
      by_cases h : n / 10 = 0
      · simp only [h, if_true]
        have hd := digitChar_value (n % 10) (Nat.mod_lt _ (by decide))
        simp only [digitsValue, List.foldl_cons, List.foldl_nil]
        omega
      · simp only [h, if_false]
        rw [toDigitsCore_append, digitsValue_append_singleton, ih (n / 10) (by omega),
          digitChar_value (n % 10) (Nat.mod_lt _ (by decide))]
        omega

theorem toDigits_ne_nil (n : Nat) : Nat.toDigits 10 n ≠ [] := by
  unfold Nat.toDigits
  simp only [Nat.toDigitsCore]
  split
  · simp
  · rw [toDigitsCore_append]; simp

theorem toDigits_isdigit (n : Nat) : ∀ c ∈ Nat.toDigits 10 n, isdigit c = true :=
  toDigitsCore_isdigit _ _ _ (by simp)

theorem digitsValue_toDigits (n : Nat) : digitsValue (Nat.toDigits 10 n) = n :=
  digitsValue_toDigitsCore (n + 1) n (Nat.lt_succ_self n)

theorem takeWhile_append_stop (p : Char → Bool) (ds rest : List Char)
    (hd : ∀ c ∈ ds, p c = true) (hrest : ∀ c, rest.head? = some c → p c = false) :
    (ds ++ rest).takeWhile p = ds := by
  induction ds with
  | nil =>
      cases rest with
      | nil => rfl
      | cons r rest => simp [List.takeWhile, hrest r rfl]
  | cons d ds ih =>
      have h1 : p d = true := hd d (List.mem_cons_self _ _)
      simp only [List.cons_append, List.takeWhile_cons, h1, if_true]
      rw [ih (fun c hc => hd c (List.mem_cons_of_mem _ hc))]

/-- What `std::stoul` makes of a string that starts with a run of digits `ds`
followed by nothing or by a character that is not a digit. -/
theorem stoul_leading_digits (w : Nat) (ds rest : List Char) (hne : ds ≠ [])
    (hd : ∀ c ∈ ds, isdigit c = true)
    (hrest : ∀ c, rest.head? = some c → isdigit c = false) :
    stoul w (String.mk (ds ++ rest))
      = if 2 ^ w ≤ digitsValue ds then none else some (digitsValue ds) := by
  cases ds with
  | nil => exact absurd rfl hne
  | cons d ds =>
      have h1 : isdigit d = true := hd d (List.mem_cons_self _ _)
      have h2 := isdigit_not_space d h1
      obtain ⟨h3, h4⟩ := isdigit_not_sign d h1
      have ht : (d :: (ds ++ rest)).takeWhile isdigit = d :: ds :=
        takeWhile_append_stop isdigit (d :: ds) rest hd hrest
      have hw : (d :: (ds ++ rest)).dropWhile isspace = d :: (ds ++ rest) := by
        simp [List.dropWhile_cons, h2]
      simp only [stoul, List.cons_append, hw, h3, h4, if_false, stoulDigits, ht,
        List.isEmpty_cons, Bool.false_eq_true]

theorem stoul_repr (w n : Nat) (h : n < 2 ^ w) : stoul w (Nat.repr n) = some n := by
  have h0 : Nat.repr n = String.mk (Nat.toDigits 10 n ++ []) := by
    simp [Nat.repr, List.asString]
  rw [h0, stoul_leading_digits w _ [] (toDigits_ne_nil n) (toDigits_isdigit n) (by simp),
    digitsValue_toDigits]
  simp [Nat.not_le.mpr h]

/-! ## `StopServiceRequest::OnReply` -/

theorem OnReceive_some (K : ErrorValues) (unpack : String → Option Nat)
    (serialized_request : String) (ec : ErrorCode) (n : Nat) (hn : n < 2 ^ 32)
    (hreq : unpack serialized_request = some n) :
    StopServiceRequest.OnReceive K unpack serialized_request ec
      = { result := Nat.repr n,
          ec := { value := K.interrupted, category := Category.system },
          calls := [FactoryCall.StopService n] } := by
  have hu : u32 n = n := Nat.mod_eq_of_lt hn
  simp [StopServiceRequest.OnReceive, hreq, hu, streamExtract_streamInsert, ErrorCode.assign]

theorem OnReply_eq_replyStatus (w : Nat) (unpack : String → Option Nat)
    (OnSending : ServiceStatus → String) (serialized_request : String) (ec : ErrorCode)
    (serialized_result : String) :
    StopServiceRequest.OnReply w unpack OnSending serialized_request ec serialized_result
      = match StopServiceRequest.replyStatus w unpack serialized_request ec
            serialized_result with
        | none => ""
        | some reply => OnSending reply := by
  unfold StopServiceRequest.OnReply StopServiceRequest.replyStatus
  cases unpack serialized_request with
  | none => rfl
  | some m =>
      cases stoul w serialized_result with
      | none => rfl
      | some v => rfl

theorem replyStatus_of_stoul (w : Nat) (unpack : String → Option Nat)
    (serialized_request : String) (ec : ErrorCode) (serialized_result : String)
    (m v : Nat) (hreq : unpack serialized_request = some m)
    (hs : stoul w serialized_result = some v) :
    StopServiceRequest.replyStatus w unpack serialized_request ec serialized_result
      = some { instance_id := v % 2 ^ 32, service_type := 0, status_code := ec.value,
               parameters := [] } := by
  simp [StopServiceRequest.replyStatus, hreq, hs, u32]

theorem replyStatus_repr (w : Nat) (unpack : String → Option Nat)
    (serialized_request : String) (ec : ErrorCode) (m n : Nat) (hw : 32 ≤ w)
    (hreq : unpack serialized_request = some m) (hn : n < 2 ^ 32) :
    StopServiceRequest.replyStatus w unpack serialized_request ec (Nat.repr n)
      = some { instance_id := n, service_type := 0, status_code := ec.value,
               parameters := [] } := by
  have hlt : n < 2 ^ w := lt_of_lt_of_le hn (Nat.pow_le_pow_right (by decide) hw)
  rw [replyStatus_of_stoul w unpack serialized_request ec _ m n hreq (stoul_repr w n hlt),
    Nat.mod_eq_of_lt hn]

/-- C11: for an original request that deserializes (to any id `m`), any status
code `ec` and the echoed string that is the decimal form of a 32-bit id `n`,
`OnReply` returns the serialization of
`ServiceStatus{instance_id = n, service_type = 0, status_code = ec.value(),
parameters = {}}`, for an `unsigned long` of at least 32 bits; `m` plays no
part. -/
theorem OnReply_builds_status (w : Nat) (unpack : String → Option Nat)
    (OnSending : ServiceStatus → String) (serialized_request : String) (ec : ErrorCode)
    (m n : Nat) (hw : 32 ≤ w) (hreq : unpack serialized_request = some m)
    (hn : n < 2 ^ 32) :
    StopServiceRequest.OnReply w unpack OnSending serialized_request ec (Nat.repr n)
        = OnSending { instance_id := n, service_type := 0, status_code := ec.value,
                      parameters := [] }
    ∧ StopServiceRequest.replyStatus w unpack serialized_request ec (Nat.repr n)
        = some { instance_id := n, service_type := 0, status_code := ec.value,
                 parameters := [] } := by
  have h := replyStatus_repr w unpack serialized_request ec m n hw hreq hn
  refine ⟨?_, h⟩
  rw [OnReply_eq_replyStatus, h]

theorem OnReply_builds_status_witness :
    (32 ≤ 64) ∧ unpackFixint (String.mk [Char.ofNat 0x91, Char.ofNat 99]) = some 99
    ∧ (7 : Nat) < 2 ^ 32
    ∧ StopServiceRequest.OnReply 64 unpackFixint sampleOnSending
        (String.mk [Char.ofNat 0x91, Char.ofNat 99]) ⟨4, Category.system⟩ (Nat.repr 7)
        = sampleOnSending { instance_id := 7, service_type := 0, status_code := 4,
                            parameters := [] } :=
  ⟨by decide, by decide, by decide,
   (OnReply_builds_status 64 unpackFixint sampleOnSending
      (String.mk [Char.ofNat 0x91, Char.ofNat 99]) ⟨4, Category.system⟩ 99 7
      (by decide) (by decide) (by decide)).1⟩

theorem filter_ne_of_not_mem (l : List Nat) (n : Nat) (h : n ∉ l) :
    l.filter (fun i => i != n) = l := by
  rw [List.filter_eq_self]
  intro a ha
  have : a ≠ n := fun e => h (e ▸ ha)
  simpa using this

/-- C12, as stated, fails: with the Linux error values and the factory running
only instance 7, the request for 99 (never started; the factory is left as it
was) and the request for 7 (running; it is stopped) both end in a
`ServiceStatus` with status code 4, `errc::interrupted`: the status code for
the unknown instance does not differ from the one for the running
instance. -/
theorem stop_unknown_status_not_distinct :
    99 ∉ (ServiceFactory.mk [7]).running ∧ 7 ∈ (ServiceFactory.mk [7]).running
    ∧ applyCalls ServiceFactory.StopService
        (StopServiceRequest.OnReceive ErrorValues.linux unpackFixint
          (String.mk [Char.ofNat 0x91, Char.ofNat 99]) ErrorCode.success).calls
        (ServiceFactory.mk [7]) = ServiceFactory.mk [7]
    ∧ applyCalls ServiceFactory.StopService
        (StopServiceRequest.OnReceive ErrorValues.linux unpackFixint
          (String.mk [Char.ofNat 0x91, Char.ofNat 7]) ErrorCode.success).calls
        (ServiceFactory.mk [7]) = ServiceFactory.mk []
    ∧ StopServiceRequest.replyStatus 64 unpackFixint
        (String.mk [Char.ofNat 0x91, Char.ofNat 99])
        (StopServiceRequest.OnReceive ErrorValues.linux unpackFixint
          (String.mk [Char.ofNat 0x91, Char.ofNat 99]) ErrorCode.success).ec
        (StopServiceRequest.OnReceive ErrorValues.linux unpackFixint
          (String.mk [Char.ofNat 0x91, Char.ofNat 99]) ErrorCode.success).result
        = some { instance_id := 99, service_type := 0, status_code := 4, parameters := [] }
    ∧ StopServiceRequest.replyStatus 64 unpackFixint
        (String.mk [Char.ofNat 0x91, Char.ofNat 7])
        (StopServiceRequest.OnReceive ErrorValues.linux unpackFixint
          (String.mk [Char.ofNat 0x91, Char.ofNat 7]) ErrorCode.success).ec
        (StopServiceRequest.OnReceive ErrorValues.linux unpackFixint
          (String.mk [Char.ofNat 0x91, Char.ofNat 7]) ErrorCode.success).result
        = some { instance_id := 7, service_type := 0, status_code := 4, parameters := [] }
    ∧ ¬ ((StopServiceRequest.replyStatus 64 unpackFixint
            (String.mk [Char.ofNat 0x91, Char.ofNat 99])
            (StopServiceRequest.OnReceive ErrorValues.linux unpackFixint
              (String.mk [Char.ofNat 0x91, Char.ofNat 99]) ErrorCode.success).ec
            (StopServiceRequest.OnReceive ErrorValues.linux unpackFixint
              (String.mk [Char.ofNat 0x91, Char.ofNat 99]) ErrorCode.success).result).map
          ServiceStatus.status_code
        ≠ (StopServiceRequest.replyStatus 64 unpackFixint
            (String.mk [Char.ofNat 0x91, Char.ofNat 7])
            (StopServiceRequest.OnReceive ErrorValues.linux unpackFixint
              (String.mk [Char.ofNat 0x91, Char.ofNat 7]) ErrorCode.success).ec
            (StopServiceRequest.OnReceive ErrorValues.linux unpackFixint
              (String.mk [Char.ofNat 0x91, Char.ofNat 7]) ErrorCode.success).result).map
          ServiceStatus.status_code) := by
  decide

/-- C12, amended: for a request for instance 99 that was never started, when
the status code and the string produced by `OnReceive` are handed to `OnReply`,
the factory is left as it was and the status code of the reply is the
in-progress marker `errc::interrupted` that `OnReceive` sets; it is not 0 (the
value of the marker comes from a header outside the sources and is taken not to
be 0), and it is the same as the status code obtained for a request naming a
running instance `n`, which the factory does stop. -/
theorem stop_unknown_status_is_marker (K : ErrorValues) (w : Nat)
    (unpack : String → Option Nat) (OnSending : ServiceStatus → String)
    (request99 requestN : String) (n : Nat) (f : ServiceFactory) (ec : ErrorCode)
    (hw : 32 ≤ w) (h99 : unpack request99 = some 99) (hN : unpack requestN = some n)
    (hn : n < 2 ^ 32) (hnot : 99 ∉ f.running) (hrun : n ∈ f.running)
    (hK : K.interrupted ≠ 0) :
    (applyCalls ServiceFactory.StopService
        (StopServiceRequest.OnReceive K unpack request99 ec).calls f).running = f.running
    ∧ StopServiceRequest.OnReply w unpack OnSending request99
        (StopServiceRequest.OnReceive K unpack request99 ec).ec
        (StopServiceRequest.OnReceive K unpack request99 ec).result
        = OnSending { instance_id := 99, service_type := 0, status_code := K.interrupted,
                      parameters := [] }
    ∧ K.interrupted ≠ 0
    ∧ StopServiceRequest.OnReply w unpack OnSending requestN
        (StopServiceRequest.OnReceive K unpack requestN ec).ec
        (StopServiceRequest.OnReceive K unpack requestN ec).result
        = OnSending { instance_id := n, service_type := 0, status_code := K.interrupted,
                      parameters := [] }
    ∧ (applyCalls ServiceFactory.StopService
        (StopServiceRequest.OnReceive K unpack requestN ec).calls f).running ≠ f.running := by
  have h1 := OnReceive_some K unpack request99 ec 99 (by decide) h99
  have h2 := OnReceive_some K unpack requestN ec n hn hN
  rw [h1, h2]
  refine ⟨?_, ?_, hK, ?_, ?_⟩
  · simp only [applyCalls, List.foldl_cons, List.foldl_nil, ServiceFactory.StopService]
    exact filter_ne_of_not_mem _ _ hnot
  · rw [OnReply_eq_replyStatus, replyStatus_repr w unpack request99 _ 99 99 hw h99 (by decide)]
  · rw [OnReply_eq_replyStatus, replyStatus_repr w unpack requestN _ n n hw hN hn]
  · simp only [applyCalls, List.foldl_cons, List.foldl_nil, ServiceFactory.StopService]
    intro hfix
    have hall := List.filter_eq_self.mp hfix n hrun
    simp at hall

theorem stop_unknown_status_is_marker_witness :
    (32 ≤ 64) ∧ 99 ∉ (ServiceFactory.mk [7]).running ∧ 7 ∈ (ServiceFactory.mk [7]).running
    ∧ ErrorValues.linux.interrupted ≠ 0
    ∧ StopServiceRequest.OnReply 64 unpackFixint sampleOnSending
        (String.mk [Char.ofNat 0x91, Char.ofNat 99])
        (StopServiceRequest.OnReceive ErrorValues.linux unpackFixint
          (String.mk [Char.ofNat 0x91, Char.ofNat 99]) ErrorCode.success).ec
        (StopServiceRequest.OnReceive ErrorValues.linux unpackFixint
          (String.mk [Char.ofNat 0x91, Char.ofNat 99]) ErrorCode.success).result
        = sampleOnSending { instance_id := 99, service_type := 0,
                            status_code := ErrorValues.linux.interrupted,
                            parameters := [] } :=
  ⟨by decide, by decide, by decide, by decide,
   (stop_unknown_status_is_marker ErrorValues.linux 64 unpackFixint sampleOnSending
      (String.mk [Char.ofNat 0x91, Char.ofNat 99]) (String.mk [Char.ofNat 0x91, Char.ofNat 7])
      7 (ServiceFactory.mk [7]) ErrorCode.success (by decide) (by decide) (by decide)
      (by decide) (by decide) (by decide) (by decide)).2.1⟩

/-- C13, as stated, fails: with the Linux error values and instance 7 running,
the request `{instance_id: 7}` stops the instance, and handing the status code
and the string of `OnReceive` to `OnReply` builds the `ServiceStatus`
`{7, 0, 4, {}}`: the status code is 4, `errc::interrupted`, not 0. -/
theorem stop_running_status_not_zero :
    7 ∈ (ServiceFactory.mk [7]).running
    ∧ applyCalls ServiceFactory.StopService
        (StopServiceRequest.OnReceive ErrorValues.linux unpackFixint
          (String.mk [Char.ofNat 0x91, Char.ofNat 7]) ErrorCode.success).calls
        (ServiceFactory.mk [7]) = ServiceFactory.mk []
    ∧ StopServiceRequest.replyStatus 64 unpackFixint
        (String.mk [Char.ofNat 0x91, Char.ofNat 7])
        (StopServiceRequest.OnReceive ErrorValues.linux unpackFixint
          (String.mk [Char.ofNat 0x91, Char.ofNat 7]) ErrorCode.success).ec
        (StopServiceRequest.OnReceive ErrorValues.linux unpackFixint
          (String.mk [Char.ofNat 0x91, Char.ofNat 7]) ErrorCode.success).result
        = some { instance_id := 7, service_type := 0, status_code := 4, parameters := [] }
    ∧ StopServiceRequest.replyStatus 64 unpackFixint
        (String.mk [Char.ofNat 0x91, Char.ofNat 7])
        (StopServiceRequest.OnReceive ErrorValues.linux unpackFixint
          (String.mk [Char.ofNat 0x91, Char.ofNat 7]) ErrorCode.success).ec
        (StopServiceRequest.OnReceive ErrorValues.linux unpackFixint
          (String.mk [Char.ofNat 0x91, Char.ofNat 7]) ErrorCode.success).result
        ≠ some { instance_id := 7, service_type := 0, status_code := 0, parameters := [] }
    ∧ StopServiceRequest.OnReply 64 unpackFixint sampleOnSending
        (String.mk [Char.ofNat 0x91, Char.ofNat 7])
        (StopServiceRequest.OnReceive ErrorValues.linux unpackFixint
          (String.mk [Char.ofNat 0x91, Char.ofNat 7]) ErrorCode.success).ec
        (StopServiceRequest.OnReceive ErrorValues.linux unpackFixint
          (String.mk [Char.ofNat 0x91, Char.ofNat 7]) ErrorCode.success).result
        ≠ sampleOnSending
            { instance_id := 7, service_type := 0, status_code := 0, parameters := [] } := by
  decide

/-- C13, amended: for a request `{instance_id: 7}`, when the status code and the
string produced by `OnReceive` are handed to `OnReply` together with the
original request, the reply payload is the serialization of the `ServiceStatus`
with instance id 7, service type 0, an empty parameter map, and as status code
the in-progress marker `errc::interrupted` that `OnReceive` sets; and instance 7
is no longer running. -/
theorem stop_running_status_is_marker (K : ErrorValues) (w : Nat)
    (unpack : String → Option Nat) (OnSending : ServiceStatus → String)
    (request : String) (f : ServiceFactory) (ec : ErrorCode)
    (hw : 32 ≤ w) (hreq : unpack request = some 7) :
    StopServiceRequest.OnReply w unpack OnSending request
        (StopServiceRequest.OnReceive K unpack request ec).ec
        (StopServiceRequest.OnReceive K unpack request ec).result
        = OnSending { instance_id := 7, service_type := 0, status_code := K.interrupted,
                      parameters := [] }
    ∧ StopServiceRequest.replyStatus w unpack request
        (StopServiceRequest.OnReceive K unpack request ec).ec
        (StopServiceRequest.OnReceive K unpack request ec).result
        = some { instance_id := 7, service_type := 0, status_code := K.interrupted,
                 parameters := [] }
    ∧ 7 ∉ (applyCalls ServiceFactory.StopService
        (StopServiceRequest.OnReceive K unpack request ec).calls f).running := by
  have h1 := OnReceive_some K unpack request ec 7 (by decide) hreq
  have h2 := replyStatus_repr w unpack request
    { value := K.interrupted, category := Category.system } 7 7 hw hreq (by decide)
  rw [h1]
  refine ⟨?_, h2, ?_⟩
  · rw [OnReply_eq_replyStatus, h2]
  · simp [applyCalls, ServiceFactory.StopService]

theorem stop_running_status_is_marker_witness :
    (32 ≤ 64) ∧ unpackFixint (String.mk [Char.ofNat 0x91, Char.ofNat 7]) = some 7
    ∧ StopServiceRequest.replyStatus 64 unpackFixint
        (String.mk [Char.ofNat 0x91, Char.ofNat 7])
        (StopServiceRequest.OnReceive ErrorValues.linux unpackFixint
          (String.mk [Char.ofNat 0x91, Char.ofNat 7]) ErrorCode.success).ec
        (StopServiceRequest.OnReceive ErrorValues.linux unpackFixint
          (String.mk [Char.ofNat 0x91, Char.ofNat 7]) ErrorCode.success).result
        = some { instance_id := 7, service_type := 0,
                 status_code := ErrorValues.linux.interrupted, parameters := [] } :=
  ⟨by decide, by decide,
   (stop_running_status_is_marker ErrorValues.linux 64 unpackFixint sampleOnSending
      (String.mk [Char.ofNat 0x91, Char.ofNat 7]) (ServiceFactory.mk [7]) ErrorCode.success
      (by decide) (by decide)).2.1⟩

/-- C14: for every 32-bit instance id `n`, the string `OnReceive` returns for a
request with id `n` is the decimal form of `n`: not empty, all digits (no sign,
no whitespace). `std::stoul` on it, for an `unsigned long` of at least 32 bits,
gives `n`, the narrowing to `uint32_t` keeps `n`, and the `ServiceStatus`
`OnReply` builds from it has instance id `n`. -/
theorem instance_id_survives_text_hop (K : ErrorValues) (w : Nat)
    (unpack : String → Option Nat) (OnSending : ServiceStatus → String)
    (request : String) (ec ec1 : ErrorCode) (n : Nat) (hw : 32 ≤ w) (hn : n < 2 ^ 32)
    (hreq : unpack request = some n) :
    (StopServiceRequest.OnReceive K unpack request ec).result = Nat.repr n
    ∧ (StopServiceRequest.OnReceive K unpack request ec).result.data ≠ []
    ∧ (∀ c ∈ (StopServiceRequest.OnReceive K unpack request ec).result.data,
        isdigit c = true ∧ isspace c = false)
    ∧ stoul w (StopServiceRequest.OnReceive K unpack request ec).result = some n
    ∧ u32 n = n
    ∧ StopServiceRequest.replyStatus w unpack request ec1
        (StopServiceRequest.OnReceive K unpack request ec).result
        = some { instance_id := n, service_type := 0, status_code := ec1.value,
                 parameters := [] }
    ∧ StopServiceRequest.OnReply w unpack OnSending request ec1
        (StopServiceRequest.OnReceive K unpack request ec).result
        = OnSending { instance_id := n, service_type := 0, status_code := ec1.value,
                      parameters := [] } := by
  have h1 := OnReceive_some K unpack request ec n hn hreq
  have hlt : n < 2 ^ w := lt_of_lt_of_le hn (Nat.pow_le_pow_right (by decide) hw)
  have h2 := replyStatus_repr w unpack request ec1 n n hw hreq hn
  have hdata : (Nat.repr n).data = Nat.toDigits 10 n := rfl
  rw [h1]
  refine ⟨rfl, ?_, ?_, stoul_repr w n hlt, Nat.mod_eq_of_lt hn, h2, ?_⟩
  · rw [hdata]; exact toDigits_ne_nil n
  · intro c hc
    rw [hdata] at hc
    exact ⟨toDigits_isdigit n c hc, isdigit_not_space c (toDigits_isdigit n c hc)⟩
  · rw [OnReply_eq_replyStatus, h2]

theorem instance_id_survives_text_hop_witness :
    (32 ≤ 64) ∧ (127 : Nat) < 2 ^ 32
    ∧ unpackFixint (String.mk [Char.ofNat 0x91, Char.ofNat 127]) = some 127
    ∧ stoul 64 (StopServiceRequest.OnReceive ErrorValues.linux unpackFixint
        (String.mk [Char.ofNat 0x91, Char.ofNat 127]) ErrorCode.success).result = some 127 :=
  ⟨by decide, by decide, by decide,
   (instance_id_survives_text_hop ErrorValues.linux 64 unpackFixint sampleOnSending
      (String.mk [Char.ofNat 0x91, Char.ofNat 127]) ErrorCode.success ErrorCode.success 127
      (by decide) (by decide) (by decide)).2.2.2.1⟩

/-- C15: for version constants that are bytes, `IsSupportedVersion(GetVersion())`
is true; so on a stream where nothing fails, a responder given an initiator
with the same constants completes with success after any interleaving followed
by three rounds in which both sides run, and so does the initiator. -/
theorem version_self_compatible (V : Versions) (hV : V.IsBytes) :
    IsSupportedVersion V (GetVersion V) = true
    ∧ ∀ (K : ErrorValues) (s : List Side),
        ((Handshake.start V).run V V K (s ++ roundRobin 3)).responder.CompletedWith
            ErrorCode.success
        ∧ ((Handshake.start V).run V V K (s ++ roundRobin 3)).initiator.CompletedWith
            ErrorCode.success := by
  have hacc := accepted_eq V V hV
  simp only [beq_self_eq_true, Bool.and_self] at hacc
  refine ⟨?_, ?_⟩
  · rw [SSFRequest.version_const_buffer, u32_u32, IsSupportedVersion_u32] at hacc
    exact hacc
  · intro K s
    rw [Handshake.run_settled, hacc]
    simp [phaseState, Endpoint.CompletedWith, Endpoint.posted, Action.posted?]

theorem version_self_compatible_witness :
    (⟨1, 7, 2, 9⟩ : Versions).IsBytes
    ∧ IsSupportedVersion ⟨1, 7, 2, 9⟩ (GetVersion ⟨1, 7, 2, 9⟩) = true :=
  ⟨by decide, (version_self_compatible ⟨1, 7, 2, 9⟩ (by decide)).1⟩

theorem stoul_no_digit (w : Nat) (c : Char) (rest : List Char) (h1 : isspace c = false)
    (h2 : isdigit c = false) (h3 : c.toNat ≠ 45) (h4 : c.toNat ≠ 43) :
    stoul w (String.mk (c :: rest)) = none := by
  have hw : (c :: rest).dropWhile isspace = c :: rest := by
    simp [List.dropWhile_cons, h1]
  simp [stoul, hw, h3, h4, stoulDigits, List.takeWhile_cons, h2]

/-- C16: `OnReply` returns the empty string and builds no `ServiceStatus` when
the original request does not deserialize, whatever the echoed string and the
status code; and also when `std::stoul` throws on the echoed string, as it does
on the empty string (what `OnReceive` returns on a malformed payload) and on
any string that starts with a character that is no whitespace, sign or
digit. The function has no output but the string. -/
theorem OnReply_empty (w : Nat) (unpack : String → Option Nat)
    (OnSending : ServiceStatus → String) (serialized_request : String) (ec : ErrorCode)
    (serialized_result : String) :
    (unpack serialized_request = none →
        StopServiceRequest.OnReply w unpack OnSending serialized_request ec
            serialized_result = ""
        ∧ StopServiceRequest.replyStatus w unpack serialized_request ec
            serialized_result = none)
    ∧ (stoul w serialized_result = none →
        StopServiceRequest.OnReply w unpack OnSending serialized_request ec
            serialized_result = ""
        ∧ StopServiceRequest.replyStatus w unpack serialized_request ec
            serialized_result = none)
    ∧ stoul w "" = none
    ∧ (∀ (K : ErrorValues) (malformed : String) (ec0 : ErrorCode),
        unpack malformed = none →
        StopServiceRequest.OnReply w unpack OnSending serialized_request ec
            (StopServiceRequest.OnReceive K unpack malformed ec0).result = "")
    ∧ (∀ (c : Char) (rest : List Char), isspace c = false → isdigit c = false →
        c.toNat ≠ 45 → c.toNat ≠ 43 → stoul w (String.mk (c :: rest)) = none) := by
  have hempty : stoul w "" = none := rfl
  refine ⟨?_, ?_, hempty, ?_, stoul_no_digit w⟩
  · intro h
    simp [StopServiceRequest.OnReply, StopServiceRequest.replyStatus, h]
  · intro h
    cases hu : unpack serialized_request <;>
      simp [StopServiceRequest.OnReply, StopServiceRequest.replyStatus, h, hu]
  · intro K malformed ec0 h
    have hr : (StopServiceRequest.OnReceive K unpack malformed ec0).result = "" := by
      simp [StopServiceRequest.OnReceive, h]
    rw [hr]
    cases hu : unpack serialized_request <;>
      simp [StopServiceRequest.OnReply, hempty, hu]

theorem OnReply_empty_witness :
    unpackFixint (String.mk [Char.ofNat 0xc0]) = none
    ∧ StopServiceRequest.OnReply 64 unpackFixint sampleOnSending
        (String.mk [Char.ofNat 0xc0]) ErrorCode.success "7" = "" :=
  ⟨by decide,
   ((OnReply_empty 64 unpackFixint sampleOnSending (String.mk [Char.ofNat 0xc0])
      ErrorCode.success "7").1 (by decide)).1⟩

/-- C17: with a 64-bit `unsigned long`, for an echoed string that starts with a
run of digits `ds` denoting `m < 2 ^ 64`, followed by nothing or by a character
that is not a digit, `OnReply` does not return early: it builds and serializes
a `ServiceStatus` whose instance id is `m mod 2 ^ 32`, which is `m` itself when
`m < 2 ^ 32`. So the distinct strings `7`, `7abc` and `4294967303` all resolve
to instance id 7. -/
theorem OnReply_wraps_and_ignores_tail (unpack : String → Option Nat)
    (OnSending : ServiceStatus → String) (serialized_request : String) (ec : ErrorCode)
    (r : Nat) (ds rest : List Char) (hreq : unpack serialized_request = some r)
    (hne : ds ≠ []) (hd : ∀ c ∈ ds, isdigit c = true)
    (hrest : ∀ c, rest.head? = some c → isdigit c = false)
    (hm : digitsValue ds < 2 ^ 64) :
    StopServiceRequest.replyStatus 64 unpack serialized_request ec (String.mk (ds ++ rest))
        = some { instance_id := digitsValue ds % 2 ^ 32, service_type := 0,
                 status_code := ec.value, parameters := [] }
    ∧ StopServiceRequest.OnReply 64 unpack OnSending serialized_request ec
        (String.mk (ds ++ rest))
        = OnSending { instance_id := digitsValue ds % 2 ^ 32, service_type := 0,
                      status_code := ec.value, parameters := [] }
    ∧ (digitsValue ds < 2 ^ 32 → digitsValue ds % 2 ^ 32 = digitsValue ds)
    ∧ StopServiceRequest.replyStatus 64 unpack serialized_request ec "4294967303"
        = some { instance_id := 7, service_type := 0, status_code := ec.value,
                 parameters := [] }
    ∧ StopServiceRequest.replyStatus 64 unpack serialized_request ec "7abc"
        = some { instance_id := 7, service_type := 0, status_code := ec.value,
                 parameters := [] }
    ∧ StopServiceRequest.replyStatus 64 unpack serialized_request ec "7"
        = some { instance_id := 7, service_type := 0, status_code := ec.value,
                 parameters := [] } := by
  have hs : stoul 64 (String.mk (ds ++ rest)) = some (digitsValue ds) := by
    rw [stoul_leading_digits 64 ds rest hne hd hrest, if_neg (Nat.not_le.mpr hm)]
  have h1 := replyStatus_of_stoul 64 unpack serialized_request ec _ r _ hreq hs
  refine ⟨h1, ?_, fun h => Nat.mod_eq_of_lt h, ?_, ?_, ?_⟩
  · rw [OnReply_eq_replyStatus, h1]
  · exact replyStatus_of_stoul 64 unpack serialized_request ec _ r 4294967303 hreq
      (by decide)
  · exact replyStatus_of_stoul 64 unpack serialized_request ec _ r 7 hreq (by decide)
  · exact replyStatus_of_stoul 64 unpack serialized_request ec _ r 7 hreq (by decide)

theorem OnReply_wraps_and_ignores_tail_witness :
    unpackFixint (String.mk [Char.ofNat 0x91, Char.ofNat 99]) = some 99
    ∧ digitsValue "4294967303".data < 2 ^ 64
    ∧ StopServiceRequest.replyStatus 64 unpackFixint
        (String.mk [Char.ofNat 0x91, Char.ofNat 99]) ⟨4, Category.system⟩
        (String.mk ("4294967303".data ++ "x".data))
        = some { instance_id := digitsValue "4294967303".data % 2 ^ 32, service_type := 0,
                 status_code := 4, parameters := [] } :=
  ⟨by decide, by decide,
   (OnReply_wraps_and_ignores_tail unpackFixint sampleOnSending
      (String.mk [Char.ofNat 0x91, Char.ofNat 99]) ⟨4, Category.system⟩ 99
      "4294967303".data "x".data (by decide) (by decide) (by decide) (by decide)
      (by decide)).1⟩

end ssf
